import Mathlib

/-!
# VRSystem: rigid transforms, device pose tracking and controller input

A shallow embedding of `src/VRSystem.h` and `src/VRSystem.cpp`.

* `float` and `double` values are taken from an arbitrary commutative ring `α`
  (exact arithmetic); the witnesses instantiate `α` with `ℚ`.
* `float m[16]` of `Matrix4` is a record of the sixteen elements `m0 … m15`
  (column-major, as in the source).
* C arrays indexed by a device index are total functions on `Nat`; the loops
  only ever touch the indices below the array bound.
* `uint64_t` bit words are natural numbers below `2 ^ 64`.
* The tracking runtime (OpenVR) is an explicit record of the answers it gives
  during one call.
-/

namespace VRSystem

/-! ## Matrix4 -/

/-- A 4-by-4 matrix, elements in column-major order: `mi` is `m[i]`. -/
@[ext]
structure Matrix4 (α : Type) where
  m0 : α
  m1 : α
  m2 : α
  m3 : α
  m4 : α
  m5 : α
  m6 : α
  m7 : α
  m8 : α
  m9 : α
  m10 : α
  m11 : α
  m12 : α
  m13 : α
  m14 : α
  m15 : α
deriving DecidableEq, Repr

namespace Matrix4

variable {α : Type}

/-- Element access `operator[]`; indices above 15 are outside the array and read as `m[15]`. -/
def get (a : Matrix4 α) (i : Nat) : α :=
  match i with
  | 0 => a.m0 | 1 => a.m1 | 2 => a.m2 | 3 => a.m3
  | 4 => a.m4 | 5 => a.m5 | 6 => a.m6 | 7 => a.m7
  | 8 => a.m8 | 9 => a.m9 | 10 => a.m10 | 11 => a.m11
  | 12 => a.m12 | 13 => a.m13 | 14 => a.m14 | _ => a.m15

/-- The result of `Matrix4::identity()`. -/
def identity [Zero α] [One α] : Matrix4 α :=
  { m0 := 1, m4 := 0, m8 := 0, m12 := 0,
    m1 := 0, m5 := 1, m9 := 0, m13 := 0,
    m2 := 0, m6 := 0, m10 := 1, m14 := 0,
    m3 := 0, m7 := 0, m11 := 0, m15 := 1 }

/-- The product `Matrix4::operator* (const Matrix4& n)`. -/
def mul [Add α] [Mul α] (m n : Matrix4 α) : Matrix4 α :=
  { m0 := m.m0*n.m0 + m.m4*n.m1 + m.m8*n.m2 + m.m12*n.m3
    m1 := m.m1*n.m0 + m.m5*n.m1 + m.m9*n.m2 + m.m13*n.m3
    m2 := m.m2*n.m0 + m.m6*n.m1 + m.m10*n.m2 + m.m14*n.m3
    m3 := m.m3*n.m0 + m.m7*n.m1 + m.m11*n.m2 + m.m15*n.m3
    m4 := m.m0*n.m4 + m.m4*n.m5 + m.m8*n.m6 + m.m12*n.m7
    m5 := m.m1*n.m4 + m.m5*n.m5 + m.m9*n.m6 + m.m13*n.m7
    m6 := m.m2*n.m4 + m.m6*n.m5 + m.m10*n.m6 + m.m14*n.m7
    m7 := m.m3*n.m4 + m.m7*n.m5 + m.m11*n.m6 + m.m15*n.m7
    m8 := m.m0*n.m8 + m.m4*n.m9 + m.m8*n.m10 + m.m12*n.m11
    m9 := m.m1*n.m8 + m.m5*n.m9 + m.m9*n.m10 + m.m13*n.m11
    m10 := m.m2*n.m8 + m.m6*n.m9 + m.m10*n.m10 + m.m14*n.m11
    m11 := m.m3*n.m8 + m.m7*n.m9 + m.m11*n.m10 + m.m15*n.m11
    m12 := m.m0*n.m12 + m.m4*n.m13 + m.m8*n.m14 + m.m12*n.m15
    m13 := m.m1*n.m12 + m.m5*n.m13 + m.m9*n.m14 + m.m13*n.m15
    m14 := m.m2*n.m12 + m.m6*n.m13 + m.m10*n.m14 + m.m14*n.m15
    m15 := m.m3*n.m12 + m.m7*n.m13 + m.m11*n.m14 + m.m15*n.m15 }

instance [Add α] [Mul α] : Mul (Matrix4 α) := ⟨mul⟩

/-- The in-place `Matrix4::invertRigid()`: three swaps that transpose the rotation
block, then the new translation computed from the swapped elements. -/
def invertRigid [Add α] [Mul α] [Neg α] (a : Matrix4 α) : Matrix4 α :=
  -- std::swap(m[1],m[4]); std::swap(m[2],m[8]); std::swap(m[6],m[9]);
  let a := { a with m1 := a.m4, m4 := a.m1 }
  let a := { a with m2 := a.m8, m8 := a.m2 }
  let a := { a with m6 := a.m9, m9 := a.m6 }
  let itx := a.m0 * -a.m12 + a.m4 * -a.m13 + a.m8 * -a.m14
  let ity := a.m1 * -a.m12 + a.m5 * -a.m13 + a.m9 * -a.m14
  let itz := a.m2 * -a.m12 + a.m6 * -a.m13 + a.m10 * -a.m14
  { a with m12 := itx, m13 := ity, m14 := itz }

/-- The copying `Matrix4::inverseRigid() const`. -/
def inverseRigid [Add α] [Mul α] [Neg α] (a : Matrix4 α) : Matrix4 α :=
  invertRigid a

/-- The upper-left 3x3 block is orthonormal: the three basis columns `ux`, `uy`, `uz`
have unit length and are mutually perpendicular. -/
def Orthonormal3 [Add α] [Mul α] [Zero α] [One α] (a : Matrix4 α) : Prop :=
  a.m0*a.m0 + a.m1*a.m1 + a.m2*a.m2 = 1 ∧
  a.m4*a.m4 + a.m5*a.m5 + a.m6*a.m6 = 1 ∧
  a.m8*a.m8 + a.m9*a.m9 + a.m10*a.m10 = 1 ∧
  a.m0*a.m4 + a.m1*a.m5 + a.m2*a.m6 = 0 ∧
  a.m0*a.m8 + a.m1*a.m9 + a.m2*a.m10 = 0 ∧
  a.m4*a.m8 + a.m5*a.m9 + a.m6*a.m10 = 0

/-- The bottom row is `(0,0,0,1)`. -/
def AffineRow [Zero α] [One α] (a : Matrix4 α) : Prop :=
  a.m3 = 0 ∧ a.m7 = 0 ∧ a.m11 = 0 ∧ a.m15 = 1

/-- A rigid matrix: orthonormal rotation block and bottom row `(0,0,0,1)`. -/
def Rigid [Add α] [Mul α] [Zero α] [One α] (a : Matrix4 α) : Prop :=
  Orthonormal3 a ∧ AffineRow a

/-- The upper-left 3x3 block of `a` is `s` times that of `r`. -/
def ScaledBlock [Mul α] (a r : Matrix4 α) (s : α) : Prop :=
  a.m0 = s * r.m0 ∧ a.m1 = s * r.m1 ∧ a.m2 = s * r.m2 ∧
  a.m4 = s * r.m4 ∧ a.m5 = s * r.m5 ∧ a.m6 = s * r.m6 ∧
  a.m8 = s * r.m8 ∧ a.m9 = s * r.m9 ∧ a.m10 = s * r.m10

/-- The in-place `Matrix4::invertOrthogonal()`: the factor `is` is computed once, the
nine rotation-block elements are multiplied by it, then `invertRigid()` runs. -/
def invertOrthogonal [Add α] [Mul α] [Neg α] [One α] [Div α] (a : Matrix4 α) : Matrix4 α :=
  let is := 1 / (a.m0*a.m0 + a.m1*a.m1 + a.m2*a.m2)
  -- for(int i:{0,1,2, 4,5,6, 8,9,10}) m[i] *= is;
  let a := { a with
    m0 := a.m0 * is, m1 := a.m1 * is, m2 := a.m2 * is,
    m4 := a.m4 * is, m5 := a.m5 * is, m6 := a.m6 * is,
    m8 := a.m8 * is, m9 := a.m9 * is, m10 := a.m10 * is }
  invertRigid a

/-- The in-place `Matrix4::translate(tx, ty, tz)`. -/
def translate [Add α] (a : Matrix4 α) (tx ty tz : α) : Matrix4 α :=
  { a with m12 := a.m12 + tx, m13 := a.m13 + ty, m14 := a.m14 + tz }

/-- The in-place `Matrix4::shift(tx, ty, tz)`; `col(j)[i]` is `m[4*j + i]`. -/
def shift [Add α] [Mul α] (a : Matrix4 α) (tx ty tz : α) : Matrix4 α :=
  a.translate
    (tx*a.m0 + ty*a.m4 + tz*a.m8)
    (tx*a.m1 + ty*a.m5 + tz*a.m9)
    (tx*a.m2 + ty*a.m6 + tz*a.m10)

/-- The copying `Matrix4::shifted(tx, ty, tz) const`. -/
def shifted [Add α] [Mul α] (a : Matrix4 α) (tx ty tz : α) : Matrix4 α :=
  a.shift tx ty tz

/-- The pure translation matrix by `(tx,ty,tz)`: the identity with the translation
column `(tx,ty,tz,1)`. -/
def translation [Zero α] [One α] (tx ty tz : α) : Matrix4 α :=
  { m0 := 1, m1 := 0, m2 := 0, m3 := 0,
    m4 := 0, m5 := 1, m6 := 0, m7 := 0,
    m8 := 0, m9 := 0, m10 := 1, m11 := 0,
    m12 := tx, m13 := ty, m14 := tz, m15 := 1 }

/-- The upper-left 3x3 block as a matrix: row `r`, column `c` is `m[4*c + r]`. -/
def rot3 (a : Matrix4 α) : Matrix (Fin 3) (Fin 3) α :=
  fun r c => a.get (4 * c.val + r.val)

/-- The translation part: component `r` is `m[12 + r]`. -/
def trans3 (a : Matrix4 α) : Fin 3 → α :=
  fun r => a.get (12 + r.val)

end Matrix4

/-! ## Vec4, enumerations and the runtime interface -/

/-- The struct `Vec4`. -/
structure Vec4 (α : Type) where
  x : α
  y : α
  z : α
  w : α
deriving DecidableEq, Repr

/-- Column 3 of a matrix, `Matrix4::pos()`. -/
def Matrix4.pos {α : Type} (a : Matrix4 α) : Vec4 α :=
  { x := a.m12, y := a.m13, z := a.m14, w := a.m15 }

/-- The enum `DeviceType` (`NUM_DEVICE_TYPES` counts its five values). -/
inductive DeviceType where
  | INVALID
  | HMD
  | CONTROLLER
  | TRACKER
  | TRACKING_REFERENCE
deriving DecidableEq, Repr

/-- The runtime enum `vr::ETrackedDeviceClass`: the four classes the source names and
every other class value. -/
inductive ETrackedDeviceClass where
  | TrackedDeviceClass_HMD
  | TrackedDeviceClass_Controller
  | TrackedDeviceClass_GenericTracker
  | TrackedDeviceClass_TrackingReference
  | other (code : Nat)
deriving DecidableEq, Repr

/-- The runtime enum `vr::EVREye`. -/
inductive EVREye where
  | Eye_Left
  | Eye_Right
deriving DecidableEq, Repr

/-- The enum value `LEFT`. -/
def LEFT : Nat := 0

/-- The enum value `RIGHT`. -/
def RIGHT : Nat := 1

/-- The enum value `AXIS0` of `Button`. -/
def AXIS0 : Nat := 32

/-- The enum value `AXIS1` of `Button`. -/
def AXIS1 : Nat := 33

/-- The enum value `NO_BUTTON` of `Button` (one past `AXIS1`). -/
def NO_BUTTON : Nat := 34

/-- The function `toOVREye`. -/
def toOVREye (eye : Nat) : EVREye :=
  if LEFT = eye then EVREye.Eye_Left else EVREye.Eye_Right

/-- The function `fromOVRDeviceClass`. -/
def fromOVRDeviceClass (v : ETrackedDeviceClass) : DeviceType :=
  match v with
  | .TrackedDeviceClass_HMD => DeviceType.HMD
  | .TrackedDeviceClass_Controller => DeviceType.CONTROLLER
  | .TrackedDeviceClass_GenericTracker => DeviceType.TRACKER
  | .TrackedDeviceClass_TrackingReference => DeviceType.TRACKING_REFERENCE
  | _ => DeviceType.INVALID

/-- The runtime struct `vr::HmdMatrix34_t`: `m r c` is `m[r][c]`, three rows of four. -/
structure HmdMatrix34 (α : Type) where
  m : Nat → Nat → α

/-- The runtime struct `vr::HmdMatrix44_t`: `m r c` is `m[r][c]`. -/
structure HmdMatrix44 (α : Type) where
  m : Nat → Nat → α

/-- The function `toMatrix4(const vr::HmdMatrix34_t&)`. -/
def toMatrix4 {α : Type} [Zero α] [One α] (mat : HmdMatrix34 α) : Matrix4 α :=
  { m0 := mat.m 0 0, m1 := mat.m 1 0, m2 := mat.m 2 0, m3 := 0,
    m4 := mat.m 0 1, m5 := mat.m 1 1, m6 := mat.m 2 1, m7 := 0,
    m8 := mat.m 0 2, m9 := mat.m 1 2, m10 := mat.m 2 2, m11 := 0,
    m12 := mat.m 0 3, m13 := mat.m 1 3, m14 := mat.m 2 3, m15 := 1 }

/-- The function `toMatrix4(const vr::HmdMatrix44_t&)`. -/
def toMatrix4_44 {α : Type} (mat : HmdMatrix44 α) : Matrix4 α :=
  { m0 := mat.m 0 0, m1 := mat.m 1 0, m2 := mat.m 2 0, m3 := mat.m 3 0,
    m4 := mat.m 0 1, m5 := mat.m 1 1, m6 := mat.m 2 1, m7 := mat.m 3 1,
    m8 := mat.m 0 2, m9 := mat.m 1 2, m10 := mat.m 2 2, m11 := mat.m 3 2,
    m12 := mat.m 0 3, m13 := mat.m 1 3, m14 := mat.m 2 3, m15 := mat.m 3 3 }

/-- The runtime struct `vr::TrackedDevicePose_t`, the two members the source reads. -/
structure TrackedDevicePose (α : Type) where
  mDeviceToAbsoluteTracking : HmdMatrix34 α
  bPoseIsValid : Bool

/-- The runtime struct `vr::VRControllerState_t`. -/
structure VRControllerState (α : Type) where
  unPacketNum : Nat
  ulButtonPressed : Nat
  ulButtonTouched : Nat
  rAxis : Nat → α × α

/-- The answers of the tracking runtime during one `updatePoses()` call.
`GetSortedTrackedDeviceIndicesOfClass c` is the list of the `numIndices` indices the
runtime writes for class `c`; `WaitGetPoses i` is entry `i` of the pose array. -/
structure Runtime (α : Type) where
  GetSortedTrackedDeviceIndicesOfClass : ETrackedDeviceClass → List Nat
  WaitGetPoses : Nat → TrackedDevicePose α
  GetTrackedDeviceClass : Nat → ETrackedDeviceClass
  GetProjectionMatrix : EVREye → α → α → HmdMatrix44 α
  GetEyeToHeadTransform : EVREye → HmdMatrix34 α

/-! ## TrackedDevice -/

/-- The struct `TrackedDevice`. -/
structure TrackedDevice (α : Type) where
  type : DeviceType
  pose : Matrix4 α
  posePrev : Matrix4 α
  poseAbs : Matrix4 α
deriving DecidableEq, Repr

namespace TrackedDevice

variable {α : Type}

/-- The member `valid()`. -/
def valid (d : TrackedDevice α) : Bool :=
  decide (DeviceType.INVALID ≠ d.type)

/-- The one-argument `updatePose(const Matrix4& v)`. -/
def updatePose (d : TrackedDevice α) (v : Matrix4 α) : TrackedDevice α :=
  { d with posePrev := d.pose, pose := v, poseAbs := v }

/-- The two-argument `updatePose(const Matrix4& v, const Matrix4& parent)`. -/
def updatePose₂ [Add α] [Mul α] (d : TrackedDevice α) (v parent : Matrix4 α) :
    TrackedDevice α :=
  { d with posePrev := d.pose, pose := parent * v, poseAbs := v }

/-- The member `poseDiff()`. -/
def poseDiff [Add α] [Mul α] [Neg α] (d : TrackedDevice α) : Matrix4 α :=
  d.pose * d.posePrev.inverseRigid

end TrackedDevice

/-! ## Controller -/

/-- The class `Controller`: the inherited `TrackedDevice` and the private members.
`Bits` words are natural numbers (below `2 ^ 64`), the axis arrays are indexed by the
axis number (below `MAX_AXES`). -/
structure Controller (α : Type) extends TrackedDevice α where
  mButtons : Nat
  mTouches : Nat
  mButtonChanges : Nat
  mTouchChanges : Nat
  mAxes : Nat → α × α
  mAxisChanges : Nat → α × α
  mClickSeq : List Nat
  mClickSeqFinished : List Nat
  mClickTimer : α
  mClickTimeMax : α
  mHand : Nat

namespace Controller

variable {α : Type}

/-- The enum value `MAX_AXES`. -/
def MAX_AXES : Nat := 5

/-- The 64-bit complement `~states` of a `Bits` word. -/
def bitNot (states : Nat) : Nat :=
  2 ^ 64 - 1 - states

/-- The static `state(Bits states, unsigned i)`: `bool((Bits(1) << i) & states)`. -/
def state (states : Nat) (i : Nat) : Bool :=
  (((1 <<< i) % 2 ^ 64) &&& states) != 0

/-- The static `wentDown(Bits states, Bits changes, unsigned i)`. -/
def wentDown (states changes : Nat) (i : Nat) : Bool :=
  state (states &&& changes) i

/-- The static `wentUp(Bits states, Bits changes, unsigned i)`. -/
def wentUp (states changes : Nat) (i : Nat) : Bool :=
  state (bitNot states &&& changes) i

/-- The member `button(i)`. -/
def button (c : Controller α) (i : Nat) : Bool :=
  state c.mButtons i

/-- The member `buttonChanged(i)`. -/
def buttonChanged (c : Controller α) (i : Nat) : Bool :=
  state c.mButtonChanges i

/-- The member `buttonWentDown(i)`. -/
def buttonWentDown (c : Controller α) (i : Nat) : Bool :=
  wentDown c.mButtons c.mButtonChanges i

/-- The member `buttonWentUp(i)`. -/
def buttonWentUp (c : Controller α) (i : Nat) : Bool :=
  wentUp c.mButtons c.mButtonChanges i

/-- The member `touch(i)`. -/
def touch (c : Controller α) (i : Nat) : Bool :=
  state c.mTouches i

/-- The member `touchChanged(i)`. -/
def touchChanged (c : Controller α) (i : Nat) : Bool :=
  state c.mTouchChanges i

/-- The member `touchWentDown(i)`. -/
def touchWentDown (c : Controller α) (i : Nat) : Bool :=
  wentDown c.mTouches c.mTouchChanges i

/-- The member `touchWentUp(i)`. -/
def touchWentUp (c : Controller α) (i : Nat) : Bool :=
  wentUp c.mTouches c.mTouchChanges i

/-- The member `axis(Button b)`: the pair `mAxes[b - AXIS0]`. -/
def axis (c : Controller α) (b : Nat) : α × α :=
  c.mAxes (b - AXIS0)

/-- The member `axisChange(Button b)`. -/
def axisChange (c : Controller α) (b : Nat) : α × α :=
  c.mAxisChanges (b - AXIS0)

/-- The private `setAxis(axisNum, x, y)`. -/
def setAxis [Sub α] (c : Controller α) (axisNum : Nat) (x y : α) : Controller α :=
  { c with
    mAxisChanges := fun j =>
      if j = axisNum then (x - (c.mAxes axisNum).1, y - (c.mAxes axisNum).2)
      else c.mAxisChanges j
    mAxes := fun j => if j = axisNum then (x, y) else c.mAxes j }

/-- The private `setButtons(Bits v)`. -/
def setButtons (c : Controller α) (v : Nat) : Controller α :=
  { c with mButtonChanges := c.mButtons ^^^ v, mButtons := v }

/-- The private `setTouches(Bits v)`. -/
def setTouches (c : Controller α) (v : Nat) : Controller α :=
  { c with mTouchChanges := c.mTouches ^^^ v, mTouches := v }

/-- The assignment `Controller::operator= (const TrackedDevice& d)`. -/
def assign (c : Controller α) (d : TrackedDevice α) : Controller α :=
  { c with toTrackedDevice := d }

/-- The member `updateClicks(float dt)`. The scan `for(int i=0; i<NO_BUTTON; ++i)` pushes
every pressed button id; the ids are below 256, so `push_back(i)` stores `i` itself. -/
def updateClicks [LinearOrderedField α] (c : Controller α) (dt : α) : Controller α :=
  let c := if c.mButtonChanges ≠ 0 then { c with mClickTimer := 0 } else c
  let c :=
    if c.mClickTimer < c.mClickTimeMax then
      if c.mButtonChanges ≠ 0 then
        let seq := List.foldl (fun seq i => if c.button i then seq ++ [i] else seq)
          c.mClickSeq (List.range NO_BUTTON)
        { c with mClickSeq := seq }
      else c
    else -- timer up
      { c with mClickSeqFinished := c.mClickSeq, mClickSeq := [] }
  { c with mClickTimer := c.mClickTimer + dt }

/-- The member `clickSeq()`. -/
def clickSeq (c : Controller α) : List Nat :=
  c.mClickSeq

/-- The member `clickSeqFin()`. -/
def clickSeqFin (c : Controller α) : List Nat :=
  c.mClickSeqFinished

/-- The member `clicks(int button)`; the counter `r` is a 32-bit `unsigned`. -/
def clicks (c : Controller α) (button : Int) : Nat :=
  List.foldl (fun (r b : Nat) => (r + if (b : Int) = button then 1 else 0) % 2 ^ 32) 0
    c.mClickSeqFinished

/-- The member `hand()`. -/
def hand (c : Controller α) : Nat :=
  c.mHand

/-- A freshly constructed `Controller`: the default member initializers; the three pose
matrices of the base `TrackedDevice` have no initializer and are arbitrary. -/
def fresh [LinearOrderedField α] (pose posePrev poseAbs : Matrix4 α) : Controller α :=
  { type := DeviceType.INVALID
    pose := pose
    posePrev := posePrev
    poseAbs := poseAbs
    mButtons := 0
    mTouches := 0
    mButtonChanges := 0
    mTouchChanges := 0
    mAxes := fun _ => (0, 0)
    mAxisChanges := fun _ => (0, 0)
    mClickSeq := []
    mClickSeqFinished := []
    mClickTimer := 0
    mClickTimeMax := 0.2
    mHand := LEFT }

/-- The clearing of both change masks, as the drain step of `pollEvent()` does it
(`mButtonChanges = 0; mTouchChanges = 0;`). -/
def clearChanges (c : Controller α) : Controller α :=
  { c with mButtonChanges := 0, mTouchChanges := 0 }

/-- One delivered button word: `setButtons(v)`, one `updateClicks(dt)` tick, then the
change masks are cleared. -/
def clickTick [LinearOrderedField α] (c : Controller α) (v : Nat) (dt : α) : Controller α :=
  ((c.setButtons v).updateClicks dt).clearChanges

/-- One press and one release of button `A` alone: the word with only bit `A` set, then
the zero word, each with its own tick. -/
def tap [LinearOrderedField α] (A : Nat) (c : Controller α) (dts : α × α) : Controller α :=
  (c.clickTick (1 <<< A) dts.1).clickTick 0 dts.2

/-- A run of presses and releases of `A`, one per element of `dts`. -/
def taps [LinearOrderedField α] (A : Nat) (c : Controller α) (dts : List (α × α)) :
    Controller α :=
  dts.foldl (tap A) c

/-- A run of `updateClicks` ticks without any `setButtons` in between. -/
def idle [LinearOrderedField α] (c : Controller α) (dts : List α) : Controller α :=
  dts.foldl updateClicks c

/-- The conversion `int(x)` of a floating value: truncation toward zero. -/
def truncToInt [LinearOrderedField α] [FloorRing α] (x : α) : Int :=
  if 0 ≤ x then Int.floor x else Int.ceil x

/-- The member `axisSector(Button b, float divs, float rotate)`; `atan2` is the
library function `std::atan2`. -/
def axisSector [LinearOrderedField α] [FloorRing α] (atan2 : α → α → α)
    (c : Controller α) (b : Nat) (divs rotate : α) : Int :=
  let xy := c.axis b
  if xy.1 = 0 ∨ xy.2 = 0 then -1
  else
    let arg1 := atan2 xy.2 xy.1 * 0.15915494309189533576888376337251
    let arg1 := arg1 + rotate
    let arg1 := if arg1 < 0 then arg1 + 1 else if arg1 > 1 then arg1 - 1 else arg1
    truncToInt (arg1 * divs)

end Controller

/-! ## VRSystem -/

/-- The struct `Event`; `type` holds the numeric value of the `EventType`. -/
structure Event (α : Type) where
  type : Nat
  deviceType : DeviceType
  deviceIndex : Int
  age : α
  button : Nat
  x : α
  y : α

end VRSystem

/-- The data members of class `VRSystem` that the pose tracker, the eye pipeline, the
controller state machine and the event dispatcher use. `mImpl` records whether the
pointer `mImpl` is non-null; the two-element per-eye arrays are indexed by the eye. -/
structure VRSystem (α : Type) where
  mImpl : Bool
  mTrackedDevices : Nat → VRSystem.TrackedDevice α
  mDeviceIndices : VRSystem.DeviceType → List Nat
  mControllerStates : Nat → VRSystem.VRControllerState α
  mControllers : Nat → VRSystem.Controller α
  mNear : α
  mFar : α
  mEyeDistScale : α
  mWearingHMD : Bool
  mOverrideFixedModelView : Bool
  mParentPose : VRSystem.Matrix4 α
  mViewHMD : VRSystem.Matrix4 α
  mView : Nat → VRSystem.Matrix4 α
  mEye : Nat → VRSystem.Vec4 α
  mHeadToEye : Nat → VRSystem.Matrix4 α
  mEyeToHead : Nat → VRSystem.Matrix4 α
  mEyeToScreen : Nat → VRSystem.Matrix4 α
  mEvent : VRSystem.Event α
  mHandToDevice : Nat → Int

namespace VRSystem

variable {α : Type}

/-- The member `valid()`: `nullptr != mImpl`. -/
def valid (s : VRSystem α) : Bool :=
  s.mImpl

/-- The member `poseDevice(i)`. -/
def poseDevice (s : VRSystem α) (i : Nat) : Matrix4 α :=
  (s.mTrackedDevices i).pose

/-- The member `poseHMD()`. -/
def poseHMD (s : VRSystem α) : Matrix4 α :=
  s.poseDevice 0

/-- The member `trackedDevice(i)`. -/
def trackedDevice (s : VRSystem α) (i : Nat) : TrackedDevice α :=
  s.mTrackedDevices i

/-- The member `viewHMD()`. -/
def viewHMD (s : VRSystem α) : Matrix4 α :=
  s.mViewHMD

/-- The member `view(int eye)`. -/
def view (s : VRSystem α) (eye : Nat) : Matrix4 α :=
  s.mView eye

/-- The member `headToEye(int eye)`. -/
def headToEye (s : VRSystem α) (eye : Nat) : Matrix4 α :=
  s.mHeadToEye eye

/-- The member `eyeToHead(int eye)`. -/
def eyeToHead (s : VRSystem α) (eye : Nat) : Matrix4 α :=
  s.mEyeToHead eye

/-- The member `eyeToScreen(int eye)`. -/
def eyeToScreen (s : VRSystem α) (eye : Nat) : Matrix4 α :=
  s.mEyeToScreen eye

/-- The member `projection(int eye)`. -/
def projection (s : VRSystem α) (eye : Nat) : Matrix4 α :=
  s.eyeToScreen eye

/-- The array `ovrDevClasses` of `updatePoses()`. -/
def ovrDevClasses : List ETrackedDeviceClass :=
  [ETrackedDeviceClass.TrackedDeviceClass_HMD,
   ETrackedDeviceClass.TrackedDeviceClass_Controller,
   ETrackedDeviceClass.TrackedDeviceClass_GenericTracker,
   ETrackedDeviceClass.TrackedDeviceClass_TrackingReference]

/-- The first loop of `updatePoses()`: for each class of `ovrDevClasses` the registry
entry of its device type is cleared and refilled with the indices the runtime wrote. -/
def collectDeviceIndices (rt : Runtime α) (reg : DeviceType → List Nat) :
    DeviceType → List Nat :=
  ovrDevClasses.foldl
    (fun reg ovrDevClass =>
      Function.update reg (fromOVRDeviceClass ovrDevClass)
        (rt.GetSortedTrackedDeviceIndicesOfClass ovrDevClass))
    reg

/-- The second loop of `updatePoses()`: `std::sort` on every registry entry. The
ascending rearrangement of a list of numbers is unique; insertion sort computes it. -/
def sortDeviceIndices (reg : DeviceType → List Nat) : DeviceType → List Nat :=
  fun t => (reg t).insertionSort (fun a b => a ≤ b)

/-- The body of the device loop of `updatePoses()` for device index `i`. -/
def updateDevice [Add α] [Mul α] [Neg α] [Zero α] [One α] (rt : Runtime α) (i : Nat)
    (s : VRSystem α) : VRSystem α :=
  let dev := s.mTrackedDevices i
  if (rt.WaitGetPoses i).bPoseIsValid then
    let dev := dev.updatePose
      (s.mParentPose * toMatrix4 (rt.WaitGetPoses i).mDeviceToAbsoluteTracking)
    let dev := { dev with type := fromOVRDeviceClass (rt.GetTrackedDeviceClass i) }
    let s := { s with mTrackedDevices := Function.update s.mTrackedDevices i dev }
    if DeviceType.HMD = dev.type then
      { s with mViewHMD := dev.pose.invertRigid }
    else if DeviceType.CONTROLLER = dev.type then
      { s with mControllers := Function.update s.mControllers i ((s.mControllers i).assign dev) }
    else s
  else
    { s with mTrackedDevices :=
        Function.update s.mTrackedDevices i { dev with type := DeviceType.INVALID } }

/-- The body of the eye loop of `updatePoses()` for eye `i`. -/
def updateEye [Add α] [Mul α] [Neg α] [Zero α] [One α] (rt : Runtime α) (i : Nat)
    (s : VRSystem α) : VRSystem α :=
  let proj := toMatrix4_44 (rt.GetProjectionMatrix (toOVREye i) s.mNear s.mFar)
  let h2e := toMatrix4 (rt.GetEyeToHeadTransform (toOVREye i))
  let h2e := { h2e with m12 := h2e.m12 * s.mEyeDistScale }
  let e2h := h2e.inverseRigid
  { s with
    mEyeToScreen := Function.update s.mEyeToScreen i proj
    mHeadToEye := Function.update s.mHeadToEye i h2e
    mEye := Function.update s.mEye i (s.poseHMD * h2e).pos
    mEyeToHead := Function.update s.mEyeToHead i e2h
    mView := Function.update s.mView i (e2h * s.mViewHMD) }

/-- The member `updatePoses()`. `MAX_TRACKED_DEVICES` is the runtime constant
`vr::k_unMaxTrackedDeviceCount`, the number of device slots. -/
def updatePoses [Add α] [Mul α] [Neg α] [Zero α] [One α] (MAX_TRACKED_DEVICES : Nat)
    (rt : Runtime α) (s : VRSystem α) : VRSystem α :=
  if !s.valid then s
  else
    let s := { s with mDeviceIndices := collectDeviceIndices rt s.mDeviceIndices }
    let s := { s with mDeviceIndices := sortDeviceIndices s.mDeviceIndices }
    let s := (List.range MAX_TRACKED_DEVICES).foldl (fun s i => updateDevice rt i s) s
    (List.range 2).foldl (fun s i => updateEye rt i s) s

/-- The member template `poseParent(const Mat4& m, bool overrideFixedModelView)`; `m`
holds the first sixteen elements of the argument. -/
def poseParent [Add α] [Mul α] [Neg α] (MAX_TRACKED_DEVICES : Nat) (m : Matrix4 α)
    (s : VRSystem α) : VRSystem α :=
  let s := { s with mParentPose := m, mOverrideFixedModelView := true }
  if !s.valid then
    let s := { s with mTrackedDevices := fun i =>
      if i < MAX_TRACKED_DEVICES then (s.mTrackedDevices i).updatePose s.mParentPose
      else s.mTrackedDevices i }
    let s := { s with mViewHMD := s.mParentPose.invertRigid }
    { s with mView := fun i => if i < 2 then s.mViewHMD else s.mView i }
  else s

end VRSystem

namespace VRSystem

/-! ## The event dispatcher -/

/-- The constants of the runtime header `openvr.h` that the dispatcher uses: the event
codes behind the `EventType` enumerators and the invalid device index. The header is not
part of the repository; its values are parameters. -/
structure OpenVRHeader where
  VREvent_TrackedDeviceActivated : Nat
  VREvent_TrackedDeviceDeactivated : Nat
  VREvent_TrackedDeviceRoleChanged : Nat
  VREvent_TrackedDeviceUserInteractionStarted : Nat
  VREvent_TrackedDeviceUserInteractionEnded : Nat
  VREvent_EnterStandbyMode : Nat
  VREvent_LeaveStandbyMode : Nat
  VREvent_ButtonPress : Nat
  VREvent_ButtonUnpress : Nat
  VREvent_ButtonTouch : Nat
  VREvent_ButtonUntouch : Nat
  k_unTrackedDeviceIndexInvalid : Nat

/-- The enumerator `ACTIVATED` of `EventType`. -/
def ACTIVATED (vr : OpenVRHeader) : Nat := vr.VREvent_TrackedDeviceActivated

/-- The enumerator `DEACTIVATED` of `EventType`. -/
def DEACTIVATED (vr : OpenVRHeader) : Nat := vr.VREvent_TrackedDeviceDeactivated

/-- The enumerator `ROLE_CHANGED` of `EventType`. -/
def ROLE_CHANGED (vr : OpenVRHeader) : Nat := vr.VREvent_TrackedDeviceRoleChanged

/-- The enumerator `INTERACTION_STARTED` of `EventType`. -/
def INTERACTION_STARTED (vr : OpenVRHeader) : Nat :=
  vr.VREvent_TrackedDeviceUserInteractionStarted

/-- The enumerator `INTERACTION_ENDED` of `EventType`. -/
def INTERACTION_ENDED (vr : OpenVRHeader) : Nat :=
  vr.VREvent_TrackedDeviceUserInteractionEnded

/-- The enumerator `STANDBY_STARTED` of `EventType`. -/
def STANDBY_STARTED (vr : OpenVRHeader) : Nat := vr.VREvent_EnterStandbyMode

/-- The enumerator `STANDBY_ENDED` of `EventType`. -/
def STANDBY_ENDED (vr : OpenVRHeader) : Nat := vr.VREvent_LeaveStandbyMode

/-- The enumerator `BUTTON_DOWN` of `EventType`. -/
def BUTTON_DOWN (vr : OpenVRHeader) : Nat := vr.VREvent_ButtonPress

/-- The enumerator `BUTTON_UP` of `EventType`. -/
def BUTTON_UP (vr : OpenVRHeader) : Nat := vr.VREvent_ButtonUnpress

/-- The enumerator `TOUCH` of `EventType`. -/
def TOUCH (vr : OpenVRHeader) : Nat := vr.VREvent_ButtonTouch

/-- The enumerator `UNTOUCH` of `EventType`. -/
def UNTOUCH (vr : OpenVRHeader) : Nat := vr.VREvent_ButtonUntouch

/-- The runtime struct `vr::VREvent_t`, the members the source reads; `button` is
`data.controller.button`. -/
structure VREvent (α : Type) where
  eventType : Nat
  trackedDeviceIndex : Nat
  eventAgeSeconds : α
  button : Nat

/-- The runtime enum `vr::ETrackedControllerRole`, the two roles the source names. -/
inductive ETrackedControllerRole where
  | TrackedControllerRole_LeftHand
  | TrackedControllerRole_RightHand
deriving DecidableEq, Repr

/-- The function `toOVRControllerRole`. -/
def toOVRControllerRole (hand : Nat) : ETrackedControllerRole :=
  if LEFT = hand then ETrackedControllerRole.TrackedControllerRole_LeftHand
  else ETrackedControllerRole.TrackedControllerRole_RightHand

/-- The answers of the tracking runtime during one `pollEvent()` call: the next event of
the queue if there is one, the class of each device, the controller state of each device
if the query succeeds, and the device index of each hand role. -/
structure PollRuntime (α : Type) where
  PollNextEvent : Option (VREvent α)
  GetTrackedDeviceClass : Nat → ETrackedDeviceClass
  GetControllerState : Nat → Option (VRControllerState α)
  GetTrackedDeviceIndexForControllerRole : ETrackedControllerRole → Nat

/-- The conversion of a `uint32_t` value to `int` (two's complement). -/
def uint32ToInt (u : Nat) : Int :=
  if u % 2 ^ 32 < 2 ^ 31 then ((u % 2 ^ 32 : Nat) : Int)
  else ((u % 2 ^ 32 : Nat) : Int) - 2 ^ 32

/-- The member `wearingHMD()`. -/
def wearingHMD (s : VRSystem α) : Bool :=
  s.mWearingHMD

/-- The member `event()`. -/
def event (s : VRSystem α) : Event α :=
  s.mEvent

/-- The lambda `updateControllerState` of `pollEvent()`. -/
def updateControllerState [Sub α] (rt : PollRuntime α) (devIndex : Nat) (s : VRSystem α) :
    Bool × VRSystem α :=
  match rt.GetControllerState devIndex with
  | some state =>
    if state.unPacketNum ≠ (s.mControllerStates devIndex).unPacketNum then
      let s := { s with mControllerStates := Function.update s.mControllerStates devIndex state }
      let c := (s.mControllers devIndex).setButtons state.ulButtonPressed
      let c := c.setTouches state.ulButtonTouched
      let c := (List.range Controller.MAX_AXES).foldl
        (fun c i => c.setAxis i (state.rAxis i).1 (state.rAxis i).2) c
      (true, { s with mControllers := Function.update s.mControllers devIndex c })
    else (false, s)
  | none => (false, s)

/-- The classification of a drained native event in `pollEvent()`: the three copied
members and the `switch(type)` over the native code. -/
def classifyEvent (vr : OpenVRHeader) (rt : PollRuntime α) (ev : VREvent α) (e : Event α) :
    Event α :=
  let devIndex := ev.trackedDeviceIndex
  let devClass := rt.GetTrackedDeviceClass devIndex
  let type := ev.eventType
  let e := { e with
    deviceType := fromOVRDeviceClass devClass
    deviceIndex := uint32ToInt devIndex
    age := ev.eventAgeSeconds }
  if type = vr.VREvent_TrackedDeviceActivated then { e with type := ACTIVATED vr }
  else if type = vr.VREvent_TrackedDeviceDeactivated then { e with type := DEACTIVATED vr }
  else if type = vr.VREvent_TrackedDeviceRoleChanged then { e with type := ROLE_CHANGED vr }
  else if type = vr.VREvent_TrackedDeviceUserInteractionStarted then
    { e with type := INTERACTION_STARTED vr }
  else if type = vr.VREvent_TrackedDeviceUserInteractionEnded then
    { e with type := INTERACTION_ENDED vr }
  else if type = vr.VREvent_ButtonPress then
    { e with type := BUTTON_DOWN vr, button := ev.button }
  else if type = vr.VREvent_ButtonUnpress then
    { e with type := BUTTON_UP vr, button := ev.button }
  else if type = vr.VREvent_ButtonTouch then
    { e with type := TOUCH vr, button := ev.button }
  else if type = vr.VREvent_ButtonUntouch then
    { e with type := UNTOUCH vr, button := ev.button }
  else { e with type := type }

/-- The automatic actions of `pollEvent()` for specific devices, the
`switch(mEvent.deviceType)`. -/
def automaticActions (vr : OpenVRHeader) (s : VRSystem α) : VRSystem α :=
  match s.mEvent.deviceType with
  | DeviceType.CONTROLLER => s
  | DeviceType.HMD =>
    if s.mEvent.type = BUTTON_DOWN vr then { s with mWearingHMD := true }
    else if s.mEvent.type = BUTTON_UP vr then { s with mWearingHMD := false }
    else s
  | _ => s

/-- The body of the hand loop of `pollEvent()` for hand `i`. -/
def updateHand (vr : OpenVRHeader) (rt : PollRuntime α) (i : Nat) (s : VRSystem α) :
    VRSystem α :=
  let deviceIdx := rt.GetTrackedDeviceIndexForControllerRole (toOVRControllerRole i)
  if vr.k_unTrackedDeviceIndexInvalid ≠ deviceIdx then
    { s with mHandToDevice := Function.update s.mHandToDevice i (uint32ToInt deviceIdx) }
  else s

/-- The body of the controller loop of `pollEvent()` for device index `i`. -/
def updateController [Sub α] (rt : PollRuntime α) (i : Nat) (s : VRSystem α) : VRSystem α :=
  let devClass := rt.GetTrackedDeviceClass i
  if ETrackedDeviceClass.TrackedDeviceClass_Controller = devClass then
    let cleared := (s.mControllers i).clearChanges
    let s := { s with mControllers := Function.update s.mControllers i cleared }
    (updateControllerState rt i s).2
  else s

/-- The member `pollEvent()`: the returned flag and the state afterwards. The switch over
the native code is the chain of its cases in source order (the case labels of a switch
are distinct); the loop bound is `vr::k_unMaxTrackedDeviceCount`. -/
def pollEvent [Sub α] (vr : OpenVRHeader) (MAX_TRACKED_DEVICES : Nat) (rt : PollRuntime α)
    (s : VRSystem α) : Bool × VRSystem α :=
  if !s.valid then (false, s)
  else
    match rt.PollNextEvent with
    | some ev =>
      let s := { s with mEvent := classifyEvent vr rt ev s.mEvent }
      (true, automaticActions vr s)
    | none =>
      let s := (List.range 2).foldl (fun s i => updateHand vr rt i s) s
      let s := (List.range MAX_TRACKED_DEVICES).foldl (fun s i => updateController rt i s) s
      (false, s)

/-! ## Planes, controller lookup, construction and reachable states -/

/-- The getter `near()`. -/
def near (s : VRSystem α) : α :=
  s.mNear

/-- The getter `far()`. -/
def far (s : VRSystem α) : α :=
  s.mFar

/-- The setter `near(float v)`; the refresh of `mEyeToScreen` in its body is commented
out in the source. -/
def near₁ [DecidableEq α] (s : VRSystem α) (v : α) : VRSystem α :=
  if v ≠ s.mNear then { s with mNear := v } else s

/-- The setter `far(float v)`; the refresh of `mEyeToScreen` in its body is commented
out in the source. -/
def far₁ [DecidableEq α] (s : VRSystem α) (v : α) : VRSystem α :=
  if v ≠ s.mFar then { s with mFar := v } else s

/-- The member `controllerIndex(int hand)`: the `unsigned` registry element is returned
as `int`; `hand` is 0 or 1. -/
def controllerIndex (s : VRSystem α) (hand : Nat) : Int :=
  let indices := s.mDeviceIndices DeviceType.CONTROLLER
  if indices.length ≥ 2 then uint32ToInt (indices.getD hand 0)
  else if indices.length = 1 then uint32ToInt (indices.getD 0 0) -- only 1 controller
  else 0

/-- The member `controller(int hand)`. -/
def controller (s : VRSystem α) (hand : Nat) : Controller α :=
  s.mControllers (s.controllerIndex hand).toNat

/-- The state the constructor `VRSystem::VRSystem(int flags)` leaves: the default member
initializers and the identity matrices it writes. `initOk` says whether `init()` left
`mImpl` non-null; the members without an initializer (`poseAbs`, the pose matrices of the
controller slots, `mControllerStates`, `mEvent`) take their values from `indet`. -/
def construct [LinearOrderedField α] (initOk : Bool) (indet : VRSystem α) : VRSystem α :=
  { mImpl := initOk
    mTrackedDevices := fun i =>
      { type := DeviceType.INVALID
        pose := Matrix4.identity
        posePrev := Matrix4.identity
        poseAbs := (indet.mTrackedDevices i).poseAbs }
    mDeviceIndices := fun _ => []
    mControllerStates := indet.mControllerStates
    mControllers := fun i =>
      Controller.fresh (indet.mControllers i).pose (indet.mControllers i).posePrev
        (indet.mControllers i).poseAbs
    mNear := 0.1
    mFar := 100
    mEyeDistScale := 1
    mWearingHMD := false
    mOverrideFixedModelView := false
    mParentPose := Matrix4.identity
    mViewHMD := Matrix4.identity
    mView := fun _ => Matrix4.identity
    mEye := fun _ => { x := 0, y := 0, z := 0, w := 0 }
    mHeadToEye := fun _ => Matrix4.identity
    mEyeToHead := fun _ => Matrix4.identity
    mEyeToScreen := fun _ => Matrix4.identity
    mEvent := indet.mEvent
    mHandToDevice := fun i => if i = 0 then 1 else 2 }

/-- The states reachable from construction by `updatePoses()`, `pollEvent()`,
`poseParent()` and the operations of `Controller` on a controller slot, for any answers
of the runtime. -/
inductive Reachable [LinearOrderedField α] (MAX_TRACKED_DEVICES : Nat) (vr : OpenVRHeader) :
    VRSystem α → Prop where
  | construct (initOk : Bool) (indet : VRSystem α) :
      Reachable MAX_TRACKED_DEVICES vr (VRSystem.construct initOk indet)
  | updatePoses (rt : Runtime α) (s : VRSystem α) :
      Reachable MAX_TRACKED_DEVICES vr s →
      Reachable MAX_TRACKED_DEVICES vr (VRSystem.updatePoses MAX_TRACKED_DEVICES rt s)
  | pollEvent (rt : PollRuntime α) (s : VRSystem α) :
      Reachable MAX_TRACKED_DEVICES vr s →
      Reachable MAX_TRACKED_DEVICES vr (VRSystem.pollEvent vr MAX_TRACKED_DEVICES rt s).2
  | poseParent (m : Matrix4 α) (s : VRSystem α) :
      Reachable MAX_TRACKED_DEVICES vr s →
      Reachable MAX_TRACKED_DEVICES vr (VRSystem.poseParent MAX_TRACKED_DEVICES m s)
  | updateClicks (i : Nat) (dt : α) (s : VRSystem α) :
      Reachable MAX_TRACKED_DEVICES vr s →
      Reachable MAX_TRACKED_DEVICES vr
        { s with mControllers :=
                   Function.update s.mControllers i ((s.mControllers i).updateClicks dt) }
  | assign (i : Nat) (d : TrackedDevice α) (s : VRSystem α) :
      Reachable MAX_TRACKED_DEVICES vr s →
      Reachable MAX_TRACKED_DEVICES vr
        { s with mControllers :=
                   Function.update s.mControllers i ((s.mControllers i).assign d) }
  | setButtons (i : Nat) (v : Nat) (s : VRSystem α) :
      Reachable MAX_TRACKED_DEVICES vr s →
      Reachable MAX_TRACKED_DEVICES vr
        { s with mControllers :=
                   Function.update s.mControllers i ((s.mControllers i).setButtons v) }
  | setTouches (i : Nat) (v : Nat) (s : VRSystem α) :
      Reachable MAX_TRACKED_DEVICES vr s →
      Reachable MAX_TRACKED_DEVICES vr
        { s with mControllers :=
                   Function.update s.mControllers i ((s.mControllers i).setTouches v) }
  | setAxis (i : Nat) (axisNum : Nat) (x y : α) (s : VRSystem α) :
      Reachable MAX_TRACKED_DEVICES vr s →
      Reachable MAX_TRACKED_DEVICES vr
        { s with mControllers :=
                   Function.update s.mControllers i ((s.mControllers i).setAxis axisNum x y) }

/-- The values the body of the controller loop of `pollEvent()` leaves in the stored
runtime state and in the controller slot it visits, as a function of their old values
(see `updateController_slots`). -/
def updateController.slot [Sub α] (rt : PollRuntime α) (i : Nat)
    (stored : VRControllerState α) (c : Controller α) : VRControllerState α × Controller α :=
  if ETrackedDeviceClass.TrackedDeviceClass_Controller = rt.GetTrackedDeviceClass i then
    match rt.GetControllerState i with
    | some state =>
      if state.unPacketNum ≠ stored.unPacketNum then
        (state,
          (List.range Controller.MAX_AXES).foldl
            (fun c i => c.setAxis i (state.rAxis i).1 (state.rAxis i).2)
            ((c.clearChanges.setButtons state.ulButtonPressed).setTouches state.ulButtonTouched))
      else (stored, c.clearChanges)
    | none => (stored, c.clearChanges)
  else (stored, c)

/-- The value the body of the device loop of `updatePoses()` leaves in the slot it
visits, as a function of the slot's old value and the parent pose (see
`updateDevice_mTrackedDevices`). -/
def updateDevice.slot [Add α] [Mul α] [Zero α] [One α] (rt : Runtime α)
    (parent : Matrix4 α) (i : Nat) (dev : TrackedDevice α) : TrackedDevice α :=
  if (rt.WaitGetPoses i).bPoseIsValid then
    { dev.updatePose (parent * toMatrix4 (rt.WaitGetPoses i).mDeviceToAbsoluteTracking) with
      type := fromOVRDeviceClass (rt.GetTrackedDeviceClass i) }
  else { dev with type := DeviceType.INVALID }

end VRSystem

namespace VRSystem

/-! ## Sample data -/

/-- A rigid matrix over `ℚ`: the rotation about the z axis with cosine `3/5` and sine
`4/5`, followed by the translation `(1,2,3)`. -/
def sampleRigid : Matrix4 ℚ :=
  { m0 := 3/5, m1 := 4/5, m2 := 0, m3 := 0,
    m4 := -4/5, m5 := 3/5, m6 := 0, m7 := 0,
    m8 := 0, m9 := 0, m10 := 1, m11 := 0,
    m12 := 1, m13 := 2, m14 := 3, m15 := 1 }

/-- The pure translation by `(1,0,0)` over `ℚ`. -/
def sampleTranslation : Matrix4 ℚ :=
  { m0 := 1, m1 := 0, m2 := 0, m3 := 0,
    m4 := 0, m5 := 1, m6 := 0, m7 := 0,
    m8 := 0, m9 := 0, m10 := 1, m11 := 0,
    m12 := 1, m13 := 0, m14 := 0, m15 := 1 }

/-- The matrix `sampleRigid` with its rotation block scaled by `2`. -/
def sampleScaled : Matrix4 ℚ :=
  { m0 := 6/5, m1 := 8/5, m2 := 0, m3 := 0,
    m4 := -8/5, m5 := 6/5, m6 := 0, m7 := 0,
    m8 := 0, m9 := 0, m10 := 2, m11 := 0,
    m12 := 1, m13 := 2, m14 := 3, m15 := 1 }

/-- A tracked device whose previous pose is `sampleRigid`. -/
def sampleDevice : TrackedDevice ℚ :=
  { type := DeviceType.TRACKER
    pose := sampleTranslation
    posePrev := sampleRigid
    poseAbs := sampleTranslation }

/-- A controller over `ℚ` with no button down whose axis 0 rests at `p`. -/
def sampleController (p : ℚ × ℚ) : Controller ℚ :=
  { toTrackedDevice := sampleDevice
    mButtons := 0
    mTouches := 0
    mButtonChanges := 0
    mTouchChanges := 0
    mAxes := fun j => if j = 0 then p else (0, 0)
    mAxisChanges := fun _ => (0, 0)
    mClickSeq := []
    mClickSeqFinished := []
    mClickTimer := 0
    mClickTimeMax := 1/5
    mHand := LEFT }

/-- A controller over `ℚ` with no pending change whose in-progress sequence is `[1, 1]`
and whose timer stands at one second, above the threshold of a fifth. -/
def sampleTimedOut : Controller ℚ :=
  { sampleController (0, 0) with mClickSeq := [1, 1], mClickTimer := 1 }

/-- A single press of button 1 (`MENU`) on a fresh controller over `ℚ`, delivered with
a tick of a tenth of a second; the button stays down. -/
def sampleHold : Controller ℚ :=
  (Controller.fresh sampleRigid sampleRigid sampleRigid).clickTick (1 <<< 1) (1/10)

/-- A double tap of button 1 (`MENU`) on a fresh controller over `ℚ`: every press and
release tick lasts a tenth of a second. -/
def sampleDoubleTap : Controller ℚ :=
  Controller.taps 1 (Controller.fresh sampleRigid sampleRigid sampleRigid)
    [(1/10, 1/10), (1/10, 1/10)]

/-- A system state over `ℚ`: every matrix is the identity except the parent pose, which
is `sampleTranslation`; `live` says whether a session exists. -/
def sampleSystem (live : Bool) : VRSystem ℚ :=
  { mImpl := live
    mTrackedDevices := fun _ =>
      { type := DeviceType.INVALID, pose := sampleRigid, posePrev := Matrix4.identity,
        poseAbs := Matrix4.identity }
    mDeviceIndices := fun _ => []
    mControllerStates := fun _ =>
      { unPacketNum := 0, ulButtonPressed := 0, ulButtonTouched := 0, rAxis := fun _ => (0, 0) }
    mControllers := fun _ => sampleController (0, 0)
    mNear := 1/10
    mFar := 100
    mEyeDistScale := 1
    mWearingHMD := false
    mOverrideFixedModelView := false
    mParentPose := sampleTranslation
    mViewHMD := Matrix4.identity
    mView := fun _ => Matrix4.identity
    mEye := fun _ => { x := 0, y := 0, z := 0, w := 0 }
    mHeadToEye := fun _ => Matrix4.identity
    mEyeToHead := fun _ => Matrix4.identity
    mEyeToScreen := fun _ => Matrix4.identity
    mEvent :=
      { type := 0, deviceType := DeviceType.INVALID, deviceIndex := 0, age := 0, button := 0,
        x := 0, y := 0 }
    mHandToDevice := fun i => if i = 0 then 1 else 2 }

/-- The 3x4 identity pose of the runtime. -/
def sampleRawPose : HmdMatrix34 ℚ :=
  { m := fun r c => if r = c then 1 else 0 }

/-- Runtime answers over `ℚ`: controllers reported as `[5, 3]`, trackers as `[4, 1, 2]`,
device 0 is the head-mounted display, every raw pose is the identity and is flagged
`poseValid`. -/
def sampleRuntime (poseValid : Bool) : Runtime ℚ :=
  { GetSortedTrackedDeviceIndicesOfClass := fun c =>
      match c with
      | .TrackedDeviceClass_HMD => [0]
      | .TrackedDeviceClass_Controller => [5, 3]
      | .TrackedDeviceClass_GenericTracker => [4, 1, 2]
      | _ => []
    WaitGetPoses := fun _ =>
      { mDeviceToAbsoluteTracking := sampleRawPose, bPoseIsValid := poseValid }
    GetTrackedDeviceClass := fun i =>
      if i = 0 then .TrackedDeviceClass_HMD
      else if i = 3 ∨ i = 5 then .TrackedDeviceClass_Controller
      else .TrackedDeviceClass_GenericTracker
    GetProjectionMatrix := fun _ _ _ => { m := fun r c => if r = c then 1 else 0 }
    GetEyeToHeadTransform := fun _ => sampleRawPose }

/-- The values the OpenVR header gives the constants of `OpenVRHeader`. -/
def sampleHeader : OpenVRHeader :=
  { VREvent_TrackedDeviceActivated := 100
    VREvent_TrackedDeviceDeactivated := 101
    VREvent_TrackedDeviceRoleChanged := 108
    VREvent_TrackedDeviceUserInteractionStarted := 103
    VREvent_TrackedDeviceUserInteractionEnded := 104
    VREvent_EnterStandbyMode := 106
    VREvent_LeaveStandbyMode := 107
    VREvent_ButtonPress := 200
    VREvent_ButtonUnpress := 201
    VREvent_ButtonTouch := 202
    VREvent_ButtonUntouch := 203
    k_unTrackedDeviceIndexInvalid := 4294967295 }

/-- A native event over `ℚ` with code `code` on device `dev`, a quarter of a second
old, carrying button 2. -/
def sampleEvent (code dev : Nat) : VREvent ℚ :=
  { eventType := code, trackedDeviceIndex := dev, eventAgeSeconds := 1/4, button := 2 }

/-- Runtime answers for one `pollEvent()` call over `ℚ`: the queue holds `next`, device 0
is the head-mounted display, devices 3 and 5 are controllers, no controller state is
available and no hand role is assigned. -/
def samplePollRuntime (next : Option (VREvent ℚ)) : PollRuntime ℚ :=
  { PollNextEvent := next
    GetTrackedDeviceClass := fun i =>
      if i = 0 then .TrackedDeviceClass_HMD
      else if i = 3 ∨ i = 5 then .TrackedDeviceClass_Controller
      else .other 0
    GetControllerState := fun _ => none
    GetTrackedDeviceIndexForControllerRole := fun _ => 4294967295 }

/-- Runtime answers over `ℚ` whose projection matrix depends on the planes: `near` on
the diagonal and `far` elsewhere. The other answers are those of `sampleRuntime true`. -/
def sampleRuntimeProj : Runtime ℚ :=
  { sampleRuntime true with
    GetProjectionMatrix := fun _ near far => { m := fun r c => if r = c then near else far } }

/-- Runtime answers for one `pollEvent()` call over `ℚ` with an empty queue: device 3 is
a controller whose state is available with packet number 0, buttons `5` and touches `1`. -/
def samplePollRuntimeIdle : PollRuntime ℚ :=
  { PollNextEvent := none
    GetTrackedDeviceClass := fun i =>
      if i = 3 then .TrackedDeviceClass_Controller else .other 0
    GetControllerState := fun _ =>
      some { unPacketNum := 0, ulButtonPressed := 5, ulButtonTouched := 1,
             rAxis := fun _ => (1/2, 1/2) }
    GetTrackedDeviceIndexForControllerRole := fun _ => 3 }

/-! ## Theorems -/

namespace Matrix4

variable {α : Type}

/-- For a square block, orthonormal columns give orthonormal rows. -/
theorem Orthonormal3.rows [CommRing α] {a : Matrix4 α} (h : Orthonormal3 a) :
    a.m0*a.m0 + a.m4*a.m4 + a.m8*a.m8 = 1 ∧
    a.m1*a.m1 + a.m5*a.m5 + a.m9*a.m9 = 1 ∧
    a.m2*a.m2 + a.m6*a.m6 + a.m10*a.m10 = 1 ∧
    a.m0*a.m1 + a.m4*a.m5 + a.m8*a.m9 = 0 ∧
    a.m0*a.m2 + a.m4*a.m6 + a.m8*a.m10 = 0 ∧
    a.m1*a.m2 + a.m5*a.m6 + a.m9*a.m10 = 0 := by
  obtain ⟨h00, h11, h22, h01, h02, h12⟩ := h
  have hRtR : !![a.m0, a.m1, a.m2; a.m4, a.m5, a.m6; a.m8, a.m9, a.m10] *
      !![a.m0, a.m4, a.m8; a.m1, a.m5, a.m9; a.m2, a.m6, a.m10] = 1 := by
    have h10 : a.m4*a.m0 + a.m5*a.m1 + a.m6*a.m2 = 0 := by rw [← h01]; ring
    have h20 : a.m8*a.m0 + a.m9*a.m1 + a.m10*a.m2 = 0 := by rw [← h02]; ring
    have h21 : a.m8*a.m4 + a.m9*a.m5 + a.m10*a.m6 = 0 := by rw [← h12]; ring
    rw [Matrix.mul_fin_three, Matrix.one_fin_three, h00, h11, h22, h01, h02, h12, h10, h20, h21]
  have hRRt := Matrix.mul_eq_one_comm.mp hRtR
  rw [Matrix.mul_fin_three, Matrix.one_fin_three] at hRRt
  have e := fun i j => congrFun (congrFun hRRt i) j
  have e00 := e 0 0
  have e11 := e 1 1
  have e22 := e 2 2
  have e01 := e 0 1
  have e02 := e 0 2
  have e12 := e 1 2
  simp at e00 e11 e22 e01 e02 e12
  exact ⟨e00, e11, e22, e01, e02, e12⟩

/-- The matrix product is associative. -/
theorem mul_assoc4 [CommRing α] (a b c : Matrix4 α) : a * b * c = a * (b * c) := by
  show mul (mul a b) c = mul a (mul b c)
  ext <;> simp only [mul] <;> ring

/-- The identity matrix is a right unit of the product. -/
theorem mul_identity [CommRing α] (a : Matrix4 α) : a * identity = a := by
  show mul a identity = a
  ext <;> simp [mul, identity]

/-- The rigid inverse is a left inverse of a rigid matrix. -/
theorem inverseRigid_mul_self [CommRing α] {a : Matrix4 α} (h : Rigid a) :
    a.inverseRigid * a = identity := by
  obtain ⟨⟨c00, c11, c22, c01, c02, c12⟩, h3, h7, h11, h15⟩ := h
  show mul (invertRigid a) a = identity
  ext <;> simp only [mul, invertRigid, identity, h3, h7, h11, h15]
  · linear_combination c00
  · linear_combination c01
  · linear_combination c02
  · ring
  · linear_combination c01
  · linear_combination c11
  · linear_combination c12
  · ring
  · linear_combination c02
  · linear_combination c12
  · linear_combination c22
  · ring
  · ring
  · ring
  · ring
  · ring

/-- C1: for every matrix `M` whose upper-left 3x3 block is orthonormal and whose bottom
row is `(0,0,0,1)`, over exact arithmetic `M * M.inverseRigid()` is the identity matrix. -/
theorem mul_inverseRigid_eq_identity [CommRing α] (M : Matrix4 α) (h : Rigid M) :
    M * M.inverseRigid = identity := by
  obtain ⟨hR, h3, h7, h11, h15⟩ := h
  obtain ⟨r00, r11, r22, r01, r02, r12⟩ := hR.rows
  show mul M (invertRigid M) = identity
  ext <;> simp only [mul, invertRigid, identity, h3, h7, h11, h15]
  · linear_combination r00
  · linear_combination r01
  · linear_combination r02
  · ring
  · linear_combination r01
  · linear_combination r11
  · linear_combination r12
  · ring
  · linear_combination r02
  · linear_combination r12
  · linear_combination r22
  · ring
  · linear_combination (-M.m12) * r00 + (-M.m13) * r01 + (-M.m14) * r02
  · linear_combination (-M.m12) * r01 + (-M.m13) * r11 + (-M.m14) * r12
  · linear_combination (-M.m12) * r02 + (-M.m13) * r12 + (-M.m14) * r22
  · ring

/-- The sample matrix is rigid. -/
theorem sampleRigid_rigid : Rigid sampleRigid := by
  norm_num [Rigid, Orthonormal3, AffineRow, sampleRigid]

/-- Witness of C1 at the sample rigid matrix. -/
theorem mul_inverseRigid_eq_identity_witness :
    Rigid sampleRigid ∧ sampleRigid * sampleRigid.inverseRigid = identity :=
  ⟨sampleRigid_rigid, mul_inverseRigid_eq_identity sampleRigid sampleRigid_rigid⟩

end Matrix4

namespace TrackedDevice

variable {α : Type}

/-- C2: for every tracked device whose `posePrev` is rigid, `poseDiff()` is
`pose * inverseRigid(posePrev)` and applying it to `posePrev` reproduces `pose`. -/
theorem poseDiff_mul_posePrev [CommRing α] (d : TrackedDevice α)
    (h : Matrix4.Rigid d.posePrev) :
    d.poseDiff = d.pose * d.posePrev.inverseRigid ∧ d.poseDiff * d.posePrev = d.pose := by
  refine ⟨rfl, ?_⟩
  unfold poseDiff
  rw [Matrix4.mul_assoc4, Matrix4.inverseRigid_mul_self h, Matrix4.mul_identity]

/-- Witness of C2 at the sample device. -/
theorem poseDiff_mul_posePrev_witness :
    Matrix4.Rigid sampleDevice.posePrev ∧
      (sampleDevice.poseDiff = sampleDevice.pose * sampleDevice.posePrev.inverseRigid ∧
        sampleDevice.poseDiff * sampleDevice.posePrev = sampleDevice.pose) :=
  ⟨Matrix4.sampleRigid_rigid, poseDiff_mul_posePrev sampleDevice Matrix4.sampleRigid_rigid⟩

end TrackedDevice

variable {α : Type}

/-! ### The loops of `updatePoses()` -/

/-- One pass of the device loop writes slot `i` only, with `updateDevice.slot`. -/
theorem updateDevice_mTrackedDevices [Add α] [Mul α] [Neg α] [Zero α] [One α]
    (rt : Runtime α) (i : Nat) (s : VRSystem α) :
    (updateDevice rt i s).mTrackedDevices =
      Function.update s.mTrackedDevices i
        (updateDevice.slot rt s.mParentPose i (s.mTrackedDevices i)) := by
  unfold updateDevice updateDevice.slot
  by_cases hv : (rt.WaitGetPoses i).bPoseIsValid = true
  · simp only [hv, if_true]
    split_ifs <;> rfl
  · simp only [hv, if_false]
    rfl

/-- One pass of the device loop leaves the session pointer, the parent pose and the
registry alone. -/
theorem updateDevice_frame [Add α] [Mul α] [Neg α] [Zero α] [One α]
    (rt : Runtime α) (i : Nat) (s : VRSystem α) :
    (updateDevice rt i s).mImpl = s.mImpl ∧
      (updateDevice rt i s).mParentPose = s.mParentPose ∧
      (updateDevice rt i s).mDeviceIndices = s.mDeviceIndices := by
  unfold updateDevice
  by_cases hv : (rt.WaitGetPoses i).bPoseIsValid = true
  · simp only [hv, if_true]
    split_ifs <;> exact ⟨rfl, rfl, rfl⟩
  · simp only [hv, if_false]
    exact ⟨rfl, rfl, rfl⟩

/-- The device loop over the first `n` indices. -/
theorem deviceLoop_spec [Add α] [Mul α] [Neg α] [Zero α] [One α]
    (rt : Runtime α) (s : VRSystem α) (n : Nat) :
    let s1 := (List.range n).foldl (fun s i => updateDevice rt i s) s
    (∀ j, s1.mTrackedDevices j =
        if j < n then updateDevice.slot rt s.mParentPose j (s.mTrackedDevices j)
        else s.mTrackedDevices j) ∧
      s1.mImpl = s.mImpl ∧ s1.mParentPose = s.mParentPose ∧
      s1.mDeviceIndices = s.mDeviceIndices := by
  induction n with
  | zero => simp
  | succ n ih =>
    simp only [List.range_succ, List.foldl_append, List.foldl_cons, List.foldl_nil]
    obtain ⟨hslot, himpl, hparent, hreg⟩ := ih
    obtain ⟨fimpl, fparent, freg⟩ :=
      updateDevice_frame rt n ((List.range n).foldl (fun s i => updateDevice rt i s) s)
    refine ⟨?_, fimpl.trans himpl, fparent.trans hparent, freg.trans hreg⟩
    intro j
    rw [updateDevice_mTrackedDevices, hparent]
    by_cases hj : j = n
    · subst hj
      simp [hslot]
    · rw [Function.update_noteq hj, hslot]
      by_cases hlt : j < n
      · simp [hlt, Nat.lt_succ_of_lt hlt]
      · have : ¬ j < n + 1 := by omega
        simp [hlt, this]

/-- One pass of the eye loop leaves the device slots, the session pointer, the parent
pose and the registry alone. -/
theorem updateEye_frame [Add α] [Mul α] [Neg α] [Zero α] [One α]
    (rt : Runtime α) (i : Nat) (s : VRSystem α) :
    (updateEye rt i s).mTrackedDevices = s.mTrackedDevices ∧
      (updateEye rt i s).mImpl = s.mImpl ∧
      (updateEye rt i s).mParentPose = s.mParentPose ∧
      (updateEye rt i s).mDeviceIndices = s.mDeviceIndices :=
  ⟨rfl, rfl, rfl, rfl⟩

/-- With a live session `updatePoses()` leaves in every slot below the bound the value
`updateDevice.slot` computes from the slot before the call, keeps the session and the
parent pose, and leaves the sorted collected indices in the registry. -/
theorem updatePoses_spec [Add α] [Mul α] [Neg α] [Zero α] [One α]
    (n : Nat) (rt : Runtime α) (s : VRSystem α) (hlive : s.valid = true) :
    (∀ j, (updatePoses n rt s).mTrackedDevices j =
        if j < n then updateDevice.slot rt s.mParentPose j (s.mTrackedDevices j)
        else s.mTrackedDevices j) ∧
      (updatePoses n rt s).valid = true ∧
      (updatePoses n rt s).mParentPose = s.mParentPose ∧
      (updatePoses n rt s).mDeviceIndices =
        sortDeviceIndices (collectDeviceIndices rt s.mDeviceIndices) := by
  have hl : s.mImpl = true := hlive
  unfold updatePoses
  simp only [hlive, Bool.not_true, Bool.false_eq_true, if_false]
  simp only [show List.range 2 = [0, 1] from rfl, List.foldl_cons, List.foldl_nil]
  obtain ⟨hslot, himpl, hparent, hreg⟩ := deviceLoop_spec rt
    { s with mDeviceIndices := sortDeviceIndices (collectDeviceIndices rt s.mDeviceIndices) } n
  refine ⟨fun j => ?_, ?_, ?_, ?_⟩
  · exact hslot j
  · exact himpl.trans hl
  · exact hparent
  · exact hreg

/-- What `updatePoses()` does to a slot whose raw pose is flagged valid: `posePrev` takes
the old `pose`, and both `pose` and `poseAbs` take `mParentPose * rawPose`, because the
one-argument `updatePose` is called with the composed matrix. -/
theorem updatePoses_valid_slot [Add α] [Mul α] [Neg α] [Zero α] [One α]
    (n : Nat) (rt : Runtime α) (s : VRSystem α) (i : Nat) (hlive : s.valid = true)
    (hi : i < n) (hvalid : (rt.WaitGetPoses i).bPoseIsValid = true) :
    ((updatePoses n rt s).mTrackedDevices i).posePrev = (s.mTrackedDevices i).pose ∧
      ((updatePoses n rt s).mTrackedDevices i).pose =
        s.mParentPose * toMatrix4 (rt.WaitGetPoses i).mDeviceToAbsoluteTracking ∧
      ((updatePoses n rt s).mTrackedDevices i).poseAbs =
        s.mParentPose * toMatrix4 (rt.WaitGetPoses i).mDeviceToAbsoluteTracking ∧
      ((updatePoses n rt s).mTrackedDevices i).type =
        fromOVRDeviceClass (rt.GetTrackedDeviceClass i) := by
  obtain ⟨hslot, -, -, -⟩ := updatePoses_spec n rt s hlive
  rw [hslot i]
  simp [hi, updateDevice.slot, hvalid, TrackedDevice.updatePose]

/-- C3: evaluation of `updatePoses()` at a live session whose parent pose is the
translation by `(1,0,0)` and whose runtime delivers the identity as the valid raw pose of
device 1. Afterwards `posePrev` is the old `pose` and `pose` is `parentPose * rawPose`, but
`poseAbs` is `parentPose * rawPose` as well: it differs from the raw tracking-space pose,
and `pose` differs from `parentPose * poseAbs`. -/
theorem updatePoses_poseAbs_not_raw :
    ((sampleRuntime true).WaitGetPoses 1).bPoseIsValid = true ∧
      ((updatePoses 64 (sampleRuntime true) (sampleSystem true)).mTrackedDevices 1).posePrev =
        ((sampleSystem true).mTrackedDevices 1).pose ∧
      ((updatePoses 64 (sampleRuntime true) (sampleSystem true)).mTrackedDevices 1).pose =
        (sampleSystem true).mParentPose * toMatrix4 sampleRawPose ∧
      ((updatePoses 64 (sampleRuntime true) (sampleSystem true)).mTrackedDevices 1).poseAbs =
        (sampleSystem true).mParentPose * toMatrix4 sampleRawPose ∧
      ((updatePoses 64 (sampleRuntime true) (sampleSystem true)).mTrackedDevices 1).poseAbs ≠
        toMatrix4 sampleRawPose ∧
      ((updatePoses 64 (sampleRuntime true) (sampleSystem true)).mTrackedDevices 1).pose ≠
        (sampleSystem true).mParentPose *
          ((updatePoses 64 (sampleRuntime true) (sampleSystem true)).mTrackedDevices 1).poseAbs := by
  obtain ⟨h1, h2, h3, -⟩ :=
    updatePoses_valid_slot 64 (sampleRuntime true) (sampleSystem true) 1 rfl (by decide) rfl
  refine ⟨rfl, h1, h2, h3, ?_, ?_⟩
  · rw [h3]
    intro h
    have h12 := congrArg Matrix4.m12 h
    revert h12
    show ¬ Matrix4.m12 (Matrix4.mul sampleTranslation (toMatrix4 sampleRawPose)) = _
    norm_num [Matrix4.mul, sampleTranslation, toMatrix4, sampleRawPose]
  · rw [h2, h3]
    intro h
    have h12 := congrArg Matrix4.m12 h
    revert h12
    show ¬ Matrix4.m12 (Matrix4.mul sampleTranslation (toMatrix4 sampleRawPose)) =
      Matrix4.m12 (Matrix4.mul sampleTranslation
        (Matrix4.mul sampleTranslation (toMatrix4 sampleRawPose)))
    norm_num [Matrix4.mul, sampleTranslation, toMatrix4, sampleRawPose]

/-- C4: in `updatePoses()` with a live session, a slot whose raw pose is flagged invalid
becomes `INVALID` (`valid()` is false) while `pose`, `posePrev` and `poseAbs` stay as they
were; a following update with a valid raw pose sets `posePrev` to that retained pose. -/
theorem updatePoses_invalid_retains [Add α] [Mul α] [Neg α] [Zero α] [One α]
    (n : Nat) (rt rt2 : Runtime α) (s : VRSystem α) (i : Nat) (hlive : s.valid = true)
    (hi : i < n) (hinvalid : (rt.WaitGetPoses i).bPoseIsValid = false)
    (hvalid : (rt2.WaitGetPoses i).bPoseIsValid = true) :
    ((updatePoses n rt s).mTrackedDevices i).type = DeviceType.INVALID ∧
      ((updatePoses n rt s).mTrackedDevices i).valid = false ∧
      ((updatePoses n rt s).mTrackedDevices i).pose = (s.mTrackedDevices i).pose ∧
      ((updatePoses n rt s).mTrackedDevices i).posePrev = (s.mTrackedDevices i).posePrev ∧
      ((updatePoses n rt s).mTrackedDevices i).poseAbs = (s.mTrackedDevices i).poseAbs ∧
      ((updatePoses n rt2 (updatePoses n rt s)).mTrackedDevices i).posePrev =
        (s.mTrackedDevices i).pose := by
  obtain ⟨hslot, hlive1, -, -⟩ := updatePoses_spec n rt s hlive
  obtain ⟨hprev, -, -, -⟩ :=
    updatePoses_valid_slot n rt2 (updatePoses n rt s) i hlive1 hi hvalid
  rw [hprev, hslot i]
  simp [hi, updateDevice.slot, hinvalid, TrackedDevice.valid]

/-- Witness of C4: device 1 of the live sample system, an update without a valid pose
followed by one with a valid pose. -/
theorem updatePoses_invalid_retains_witness :
    (sampleSystem true).valid = true ∧ 1 < 64 ∧
      ((sampleRuntime false).WaitGetPoses 1).bPoseIsValid = false ∧
      ((sampleRuntime true).WaitGetPoses 1).bPoseIsValid = true ∧
      ((updatePoses 64 (sampleRuntime false) (sampleSystem true)).mTrackedDevices 1).type =
        DeviceType.INVALID ∧
      ((updatePoses 64 (sampleRuntime false) (sampleSystem true)).mTrackedDevices 1).pose =
        sampleRigid ∧
      ((updatePoses 64 (sampleRuntime true)
          (updatePoses 64 (sampleRuntime false) (sampleSystem true))).mTrackedDevices 1).posePrev =
        sampleRigid :=
  have h := updatePoses_invalid_retains 64 (sampleRuntime false) (sampleRuntime true)
    (sampleSystem true) 1 rfl (by decide) rfl rfl
  ⟨rfl, by decide, rfl, rfl, h.1, h.2.2.1, h.2.2.2.2.2⟩

/-- C5: when no session is live, `poseParent(m)` makes the pose of every one of the
`MAX_TRACKED_DEVICES` device slots equal to `m`, element for element. -/
theorem poseParent_no_session [Add α] [Mul α] [Neg α]
    (n : Nat) (m : Matrix4 α) (s : VRSystem α) (hdead : s.valid = false) :
    ∀ i, i < n → ((poseParent n m s).mTrackedDevices i).pose = m := by
  intro i hi
  have hd : s.mImpl = false := hdead
  simp [poseParent, valid, hd, hi, TrackedDevice.updatePose]

/-- Witness of C5: the sample system without a session, slot 63 of 64. -/
theorem poseParent_no_session_witness :
    (sampleSystem false).valid = false ∧
      ((poseParent 64 sampleRigid (sampleSystem false)).mTrackedDevices 63).pose = sampleRigid :=
  ⟨rfl, poseParent_no_session 64 sampleRigid (sampleSystem false) rfl 63 (by decide)⟩

/-! ### The device-index registry -/

/-- After the first loop the registry entry of each queried class holds the list the
runtime reported for it, and the `INVALID` entry is not refilled. -/
theorem collectDeviceIndices_apply (rt : Runtime α) (reg : DeviceType → List Nat) :
    (∀ c, c ∈ ovrDevClasses →
        collectDeviceIndices rt reg (fromOVRDeviceClass c) =
          rt.GetSortedTrackedDeviceIndicesOfClass c) ∧
      collectDeviceIndices rt reg DeviceType.INVALID = reg DeviceType.INVALID := by
  refine ⟨fun c hc => ?_, ?_⟩
  · simp only [ovrDevClasses, List.mem_cons, List.mem_singleton, List.not_mem_nil,
      or_false] at hc
    rcases hc with h | h | h | h <;> subst h <;>
      simp [collectDeviceIndices, ovrDevClasses, fromOVRDeviceClass, Function.update]
  · simp [collectDeviceIndices, ovrDevClasses, fromOVRDeviceClass, Function.update]

/-- C6: after `updatePoses()` with a live session, for each device class the runtime is
asked about, the registry entry of its device type is in strictly ascending order and
holds exactly the indices the runtime reported (distinct device indices), whatever the
order of the report: a runtime reporting the same indices in another order leaves the same
entry. The `INVALID` entry is never filled and stays empty. -/
theorem updatePoses_registry_ascending [Add α] [Mul α] [Neg α] [Zero α] [One α]
    (n : Nat) (rt : Runtime α) (s : VRSystem α) (hlive : s.valid = true)
    (c : ETrackedDeviceClass) (hc : c ∈ ovrDevClasses)
    (hdistinct : (rt.GetSortedTrackedDeviceIndicesOfClass c).Nodup) :
    List.Sorted (fun a b => a < b)
        ((updatePoses n rt s).mDeviceIndices (fromOVRDeviceClass c)) ∧
      (∀ k, k ∈ (updatePoses n rt s).mDeviceIndices (fromOVRDeviceClass c) ↔
        k ∈ rt.GetSortedTrackedDeviceIndicesOfClass c) ∧
      List.Perm ((updatePoses n rt s).mDeviceIndices (fromOVRDeviceClass c))
        (rt.GetSortedTrackedDeviceIndicesOfClass c) ∧
      (∀ rt2 : Runtime α,
        List.Perm (rt2.GetSortedTrackedDeviceIndicesOfClass c)
          (rt.GetSortedTrackedDeviceIndicesOfClass c) →
        (updatePoses n rt2 s).mDeviceIndices (fromOVRDeviceClass c) =
          (updatePoses n rt s).mDeviceIndices (fromOVRDeviceClass c)) ∧
      (s.mDeviceIndices DeviceType.INVALID = [] →
        (updatePoses n rt s).mDeviceIndices DeviceType.INVALID = []) := by
  obtain ⟨-, -, -, hreg⟩ := updatePoses_spec n rt s hlive
  have hentry : (updatePoses n rt s).mDeviceIndices (fromOVRDeviceClass c) =
      (rt.GetSortedTrackedDeviceIndicesOfClass c).insertionSort (fun a b => a ≤ b) := by
    rw [hreg]
    show (collectDeviceIndices rt s.mDeviceIndices (fromOVRDeviceClass c)).insertionSort _ = _
    rw [(collectDeviceIndices_apply rt s.mDeviceIndices).1 c hc]
  have hperm := List.perm_insertionSort (fun a b : Nat => a ≤ b)
    (rt.GetSortedTrackedDeviceIndicesOfClass c)
  have hsorted := List.sorted_insertionSort (fun a b : Nat => a ≤ b)
    (rt.GetSortedTrackedDeviceIndicesOfClass c)
  refine ⟨?_, ?_, ?_, ?_, ?_⟩
  · rw [hentry]
    exact hsorted.lt_of_le (hperm.nodup_iff.mpr hdistinct)
  · intro k
    rw [hentry]
    exact hperm.mem_iff
  · rw [hentry]
    exact hperm
  · intro rt2 h2
    obtain ⟨-, -, -, hreg2⟩ := updatePoses_spec n rt2 s hlive
    have hentry2 : (updatePoses n rt2 s).mDeviceIndices (fromOVRDeviceClass c) =
        (rt2.GetSortedTrackedDeviceIndicesOfClass c).insertionSort (fun a b => a ≤ b) := by
      rw [hreg2]
      show (collectDeviceIndices rt2 s.mDeviceIndices (fromOVRDeviceClass c)).insertionSort _ = _
      rw [(collectDeviceIndices_apply rt2 s.mDeviceIndices).1 c hc]
    rw [hentry, hentry2]
    exact List.eq_of_perm_of_sorted
      (((List.perm_insertionSort _ _).trans h2).trans hperm.symm)
      (List.sorted_insertionSort _ _) hsorted
  · intro hempty
    rw [hreg]
    show (collectDeviceIndices rt s.mDeviceIndices DeviceType.INVALID).insertionSort _ = _
    rw [(collectDeviceIndices_apply rt s.mDeviceIndices).2, hempty]
    rfl

/-- Witness of C6: the runtime reports the controllers as `[5, 3]`; the registry entry of
`CONTROLLER` is `[3, 5]`. -/
theorem updatePoses_registry_ascending_witness :
    (sampleSystem true).valid = true ∧
      ETrackedDeviceClass.TrackedDeviceClass_Controller ∈ ovrDevClasses ∧
      ((sampleRuntime true).GetSortedTrackedDeviceIndicesOfClass
        ETrackedDeviceClass.TrackedDeviceClass_Controller).Nodup ∧
      List.Sorted (fun a b => a < b)
        ((updatePoses 64 (sampleRuntime true) (sampleSystem true)).mDeviceIndices
          (fromOVRDeviceClass ETrackedDeviceClass.TrackedDeviceClass_Controller)) ∧
      List.Perm
        ((updatePoses 64 (sampleRuntime true) (sampleSystem true)).mDeviceIndices
          (fromOVRDeviceClass ETrackedDeviceClass.TrackedDeviceClass_Controller))
        [5, 3] :=
  have h := updatePoses_registry_ascending 64 (sampleRuntime true) (sampleSystem true) rfl
    ETrackedDeviceClass.TrackedDeviceClass_Controller (by decide) (by decide)
  ⟨rfl, by decide, by decide, h.1, h.2.2.1⟩

namespace Controller

/-! ### Button and touch edges -/

/-- For a bit index below 64, `state` reads bit `i` of the word. -/
theorem state_eq_testBit (x i : Nat) (hi : i < 64) : state x i = x.testBit i := by
  unfold state
  rw [Nat.one_shiftLeft, Nat.mod_eq_of_lt (Nat.pow_lt_pow_right (by decide) hi)]
  cases hb : x.testBit i
  · have h0 : 2 ^ i &&& x = 0 := by
      apply Nat.eq_of_testBit_eq
      intro j
      simp only [Nat.testBit_and, Nat.testBit_two_pow, Nat.zero_testBit]
      by_cases hij : i = j
      · subst hij
        simp [hb]
      · simp [hij]
    simp [h0]
  · have h0 : 2 ^ i &&& x ≠ 0 := by
      intro h0
      have h1 := congrArg (fun y => Nat.testBit y i) h0
      simp [Nat.testBit_two_pow, hb] at h1
    simp [h0]

/-- For a 64-bit word and a bit index below 64, `bitNot` flips bit `i`. -/
theorem testBit_bitNot (x i : Nat) (hx : x < 2 ^ 64) (hi : i < 64) :
    (bitNot x).testBit i = !x.testBit i := by
  have h : bitNot x = 2 ^ 64 - (x + 1) := by
    unfold bitNot
    omega
  rw [h, Nat.testBit_two_pow_sub_succ hx]
  simp [hi]

/-- C7: for every controller state and every new button word `v`, after `setButtons(v)`
the button change mask is the old button bits XOR `v` and the button bits are `v`; the
same holds for `setTouches` with the touch bits and the touch change mask. -/
theorem setButtons_setTouches_changes (c : Controller α) (v : Nat) :
    (c.setButtons v).mButtonChanges = c.mButtons ^^^ v ∧
      (c.setButtons v).mButtons = v ∧
      (c.setTouches v).mTouchChanges = c.mTouches ^^^ v ∧
      (c.setTouches v).mTouches = v :=
  ⟨rfl, rfl, rfl, rfl⟩

/-- C8: for every old word, every new 64-bit word `v` and every bit index `i < 64`, after
`setButtons(v)` `buttonWentDown(i)` holds iff bit `i` was 0 before and is 1 after, and
`buttonWentUp(i)` holds iff bit `i` was 1 before and is 0 after; likewise for
`touchWentDown` and `touchWentUp` after `setTouches(v)`. -/
theorem went_down_up_iff (c : Controller α) (v i : Nat) (hv : v < 2 ^ 64) (hi : i < 64) :
    ((c.setButtons v).buttonWentDown i = true ↔
        c.mButtons.testBit i = false ∧ (c.setButtons v).mButtons.testBit i = true) ∧
      ((c.setButtons v).buttonWentUp i = true ↔
        c.mButtons.testBit i = true ∧ (c.setButtons v).mButtons.testBit i = false) ∧
      ((c.setTouches v).touchWentDown i = true ↔
        c.mTouches.testBit i = false ∧ (c.setTouches v).mTouches.testBit i = true) ∧
      ((c.setTouches v).touchWentUp i = true ↔
        c.mTouches.testBit i = true ∧ (c.setTouches v).mTouches.testBit i = false) := by
  simp only [buttonWentDown, buttonWentUp, touchWentDown, touchWentUp, wentDown, wentUp,
    setButtons, setTouches, state_eq_testBit _ i hi, Nat.testBit_and, Nat.testBit_xor,
    testBit_bitNot v i hv hi]
  refine ⟨?_, ?_, ?_, ?_⟩
  · cases c.mButtons.testBit i <;> cases v.testBit i <;> simp
  · cases c.mButtons.testBit i <;> cases v.testBit i <;> simp
  · cases c.mTouches.testBit i <;> cases v.testBit i <;> simp
  · cases c.mTouches.testBit i <;> cases v.testBit i <;> simp

/-- Witness of C8: from no button down, the new word `5` (bits 0 and 2) at bit 2. -/
theorem went_down_up_iff_witness :
    (5 : Nat) < 2 ^ 64 ∧ (2 : Nat) < 64 ∧
      (((sampleController (0, 0)).setButtons 5).buttonWentDown 2 = true ↔
        (sampleController (0, 0)).mButtons.testBit 2 = false ∧
          ((sampleController (0, 0)).setButtons 5).mButtons.testBit 2 = true) :=
  ⟨by decide, by decide,
    (went_down_up_iff (sampleController (0, 0)) 5 2 (by decide) (by decide)).1⟩

/-! ### axisSector -/

/-- C9: evaluation of `axisSector` on an axis resting at `(1,0)` with `divs = 4` and
`rotate = 0`: the guard `xy[0]==0 || xy[1]==0` fires on the zero y coordinate and the
result is `-1`, not sector `0`, whatever `atan2` is. -/
theorem axisSector_one_zero (atan2 : ℚ → ℚ → ℚ) :
    (sampleController (1, 0)).axis AXIS0 = (1, 0) ∧
      axisSector atan2 (sampleController (1, 0)) AXIS0 4 0 = -1 ∧
      axisSector atan2 (sampleController (1, 0)) AXIS0 4 0 ≠ 0 := by
  have h : axisSector atan2 (sampleController (1, 0)) AXIS0 4 0 = -1 := by
    simp [axisSector, axis, sampleController, AXIS0]
  refine ⟨by simp [axis, sampleController, AXIS0], h, ?_⟩
  rw [h]
  decide

/-- C10: `axisSector` on an axis whose position is exactly `(0,0)` returns `-1` for every
value of the divisions and of the rotation offset. -/
theorem axisSector_origin [LinearOrderedField α] [FloorRing α] (atan2 : α → α → α)
    (c : Controller α) (b : Nat) (divs rotate : α) (horigin : c.axis b = (0, 0)) :
    axisSector atan2 c b divs rotate = -1 := by
  simp [axisSector, horigin]

/-- Witness of C10: the sample controller with axis 0 at the origin, seven divisions and
rotation offset one third. -/
theorem axisSector_origin_witness :
    (sampleController (0, 0)).axis AXIS0 = (0, 0) ∧
      axisSector (fun y x => y + x) (sampleController (0, 0)) AXIS0 7 (1/3) = -1 :=
  ⟨by simp [axis, sampleController, AXIS0],
    axisSector_origin (fun y x => y + x) (sampleController (0, 0)) AXIS0 7 (1/3)
      (by simp [axis, sampleController, AXIS0])⟩

end Controller

namespace Matrix4

/-! ### invertRigid, invertOrthogonal, the product and shift -/

/-- The identity matrix is a left unit of the product. -/
theorem identity_mul [CommRing α] (a : Matrix4 α) : identity * a = a := by
  show mul identity a = a
  ext <;> simp [mul, identity]

/-- C15: for every matrix `M` with upper-left block `R` and translation `t`,
`invertRigid()` leaves the transpose of `R` in the upper-left block, `-(R transposed) * t`
in the translation entries 12..14, and the bottom row (entries 3, 7, 11, 15) unchanged. -/
theorem invertRigid_entries [CommRing α] (M : Matrix4 α) :
    (invertRigid M).rot3 = (M.rot3).transpose ∧
      (invertRigid M).trans3 = -((M.rot3).transpose.mulVec M.trans3) ∧
      (invertRigid M).m3 = M.m3 ∧ (invertRigid M).m7 = M.m7 ∧
      (invertRigid M).m11 = M.m11 ∧ (invertRigid M).m15 = M.m15 := by
  refine ⟨?_, ?_, rfl, rfl, rfl, rfl⟩
  · ext r c
    fin_cases r <;> fin_cases c <;> rfl
  · funext r
    fin_cases r <;>
      simp [trans3, rot3, get, invertRigid, Matrix.mulVec, Matrix.dotProduct,
        Fin.sum_univ_three] <;> ring

/-- C17: the product is the standard 4x4 matrix product on column-major storage, entry
`m[4c+r]` of `A*B` is the sum over `k` of `A.m[4k+r] * B.m[4c+k]`; and the product is not
commutative: two matrices exist whose products in the two orders differ. -/
theorem mul_standard [CommRing α] [Nontrivial α] (A B : Matrix4 α) (r c : Nat)
    (hr : r < 4) (hc : c < 4) :
    (A * B).get (4 * c + r) =
        ∑ k in Finset.range 4, A.get (4 * k + r) * B.get (4 * c + k) ∧
      ∃ X Y : Matrix4 α, X * Y ≠ Y * X := by
  constructor
  · show (mul A B).get (4 * c + r) = _
    interval_cases r <;> interval_cases c <;>
      simp only [Finset.sum_range_succ, Finset.sum_range_zero, zero_add] <;> rfl
  · refine ⟨{ (identity : Matrix4 α) with m1 := 1 }, { (identity : Matrix4 α) with m4 := 1 }, ?_⟩
    intro h
    have h0 := congrArg Matrix4.m0 h
    revert h0
    show ¬ Matrix4.m0 (mul { (identity : Matrix4 α) with m1 := 1 }
        { (identity : Matrix4 α) with m4 := 1 }) =
      Matrix4.m0 (mul { (identity : Matrix4 α) with m4 := 1 }
        { (identity : Matrix4 α) with m1 := 1 })
    simp [mul, identity]

/-- Witness of C17: row 2, column 3 of the product of the two sample matrices. -/
theorem mul_standard_witness :
    (2 : Nat) < 4 ∧ (3 : Nat) < 4 ∧
      (sampleRigid * sampleTranslation).get (4 * 3 + 2) =
        ∑ k in Finset.range 4, sampleRigid.get (4 * k + 2) * sampleTranslation.get (4 * 3 + k) :=
  ⟨by decide, by decide,
    (mul_standard sampleRigid sampleTranslation 2 3 (by decide) (by decide)).1⟩

/-- C18: `shift(tx,ty,tz)` adds `tx*ux + ty*uy + tz*uz` (first three components of columns
0, 1, 2) to entries 12..14 and changes no other entry; for every `M` whose bottom row is
`(0,0,0,1)` the result is `M * T` with `T` the pure translation by `(tx,ty,tz)`. -/
theorem shift_eq [CommRing α] (M : Matrix4 α) (tx ty tz : α) :
    M.shift tx ty tz =
        { M with
          m12 := M.m12 + (tx*M.m0 + ty*M.m4 + tz*M.m8)
          m13 := M.m13 + (tx*M.m1 + ty*M.m5 + tz*M.m9)
          m14 := M.m14 + (tx*M.m2 + ty*M.m6 + tz*M.m10) } ∧
      (AffineRow M → M.shift tx ty tz = M * translation tx ty tz) := by
  refine ⟨rfl, ?_⟩
  rintro ⟨h3, h7, h11, h15⟩
  show M.shift tx ty tz = mul M (translation tx ty tz)
  ext <;> simp [shift, translate, mul, translation, h3, h7, h11, h15] <;> ring

/-- Witness of C18: the sample rigid matrix shifted by `(1,2,3)`. -/
theorem shift_eq_witness :
    AffineRow sampleRigid ∧
      sampleRigid.shift 1 2 3 = sampleRigid * translation 1 2 3 :=
  ⟨sampleRigid_rigid.2, (shift_eq sampleRigid 1 2 3).2 sampleRigid_rigid.2⟩

/-- C16: for every `M` whose upper-left block is `s * R` with `R` orthonormal and
`s ≠ 0` and whose bottom row is `(0,0,0,1)`, over exact arithmetic
`M * invertOrthogonal(M)` is the identity; and the result of `invertOrthogonal` is that of
`invertRigid` applied after the nine rotation-block entries are divided by the squared
norm of the first column. -/
theorem mul_invertOrthogonal [Field α] (M : Matrix4 α) :
    (∀ (R : Matrix4 α) (s : α), s ≠ 0 → Orthonormal3 R → ScaledBlock M R s → AffineRow M →
        M * invertOrthogonal M = identity) ∧
      invertOrthogonal M =
        invertRigid { M with
          m0 := M.m0 / (M.m0*M.m0 + M.m1*M.m1 + M.m2*M.m2)
          m1 := M.m1 / (M.m0*M.m0 + M.m1*M.m1 + M.m2*M.m2)
          m2 := M.m2 / (M.m0*M.m0 + M.m1*M.m1 + M.m2*M.m2)
          m4 := M.m4 / (M.m0*M.m0 + M.m1*M.m1 + M.m2*M.m2)
          m5 := M.m5 / (M.m0*M.m0 + M.m1*M.m1 + M.m2*M.m2)
          m6 := M.m6 / (M.m0*M.m0 + M.m1*M.m1 + M.m2*M.m2)
          m8 := M.m8 / (M.m0*M.m0 + M.m1*M.m1 + M.m2*M.m2)
          m9 := M.m9 / (M.m0*M.m0 + M.m1*M.m1 + M.m2*M.m2)
          m10 := M.m10 / (M.m0*M.m0 + M.m1*M.m1 + M.m2*M.m2) } := by
  constructor
  · intro R s hs hR hblock hrow
    obtain ⟨r00, r11, r22, r01, r02, r12⟩ := hR.rows
    obtain ⟨c00, -, -, -, -, -⟩ := hR
    obtain ⟨b0, b1, b2, b4, b5, b6, b8, b9, b10⟩ := hblock
    obtain ⟨h3, h7, h11, h15⟩ := hrow
    have hn : M.m0*M.m0 + M.m1*M.m1 + M.m2*M.m2 = s * s := by
      rw [b0, b1, b2]
      linear_combination (s * s) * c00
    obtain ⟨i, hi⟩ : ∃ i : α, 1 / (s * s) = i := ⟨_, rfl⟩
    have hsi : s * s * i = 1 := by
      rw [← hi]
      field_simp
    show mul M (invertOrthogonal M) = identity
    ext <;>
      simp only [mul, invertOrthogonal, invertRigid, identity, hn, hi, h3, h7, h11, h15] <;>
      simp only [b0, b1, b2, b4, b5, b6, b8, b9, b10]
    · linear_combination (s * s * i) * r00 + hsi
    · linear_combination (s * s * i) * r01
    · linear_combination (s * s * i) * r02
    · ring
    · linear_combination (s * s * i) * r01
    · linear_combination (s * s * i) * r11 + hsi
    · linear_combination (s * s * i) * r12
    · ring
    · linear_combination (s * s * i) * r02
    · linear_combination (s * s * i) * r12
    · linear_combination (s * s * i) * r22 + hsi
    · ring
    · linear_combination (-(s * s * i) * M.m12) * r00 + (-(s * s * i) * M.m13) * r01 +
        (-(s * s * i) * M.m14) * r02 + (-M.m12) * hsi
    · linear_combination (-(s * s * i) * M.m12) * r01 + (-(s * s * i) * M.m13) * r11 +
        (-(s * s * i) * M.m14) * r12 + (-M.m13) * hsi
    · linear_combination (-(s * s * i) * M.m12) * r02 + (-(s * s * i) * M.m13) * r12 +
        (-(s * s * i) * M.m14) * r22 + (-M.m14) * hsi
    · ring
  · simp only [invertOrthogonal, mul_one_div]

/-- The sample scaled matrix is `2` times the rotation block of the sample rigid one. -/
theorem sampleScaled_block : ScaledBlock sampleScaled sampleRigid 2 := by
  norm_num [ScaledBlock, sampleScaled, sampleRigid]

/-- Witness of C16: the sample rigid matrix with its rotation block scaled by `2`. -/
theorem mul_invertOrthogonal_witness :
    (2 : ℚ) ≠ 0 ∧ Orthonormal3 sampleRigid ∧ ScaledBlock sampleScaled sampleRigid 2 ∧
      AffineRow sampleScaled ∧ sampleScaled * invertOrthogonal sampleScaled = identity :=
  ⟨by norm_num, sampleRigid_rigid.1, sampleScaled_block,
    by norm_num [AffineRow, sampleScaled],
    (mul_invertOrthogonal sampleScaled).1 sampleRigid 2 (by norm_num) sampleRigid_rigid.1
      sampleScaled_block (by norm_num [AffineRow, sampleScaled])⟩

end Matrix4

namespace Controller

/-! ### The click-sequence recognizer -/

/-- The scan over the button ids appends the ids that satisfy the test, in order. -/
theorem scan_eq_filter (p : Nat → Bool) (l xs : List Nat) :
    List.foldl (fun seq i => if p i then seq ++ [i] else seq) l xs = l ++ xs.filter p := by
  induction xs generalizing l with
  | nil => simp
  | cons x xs ih =>
    rw [List.foldl_cons, ih]
    by_cases hx : p x = true
    · simp [hx, List.filter_cons]
    · simp [hx, List.filter_cons]

/-- A tick with a button change: the timer restarts and ends at `dt`, the pressed ids
are appended to the in-progress sequence, the finalized sequence is kept. -/
theorem updateClicks_changed [LinearOrderedField α] (c : Controller α) (dt : α)
    (hch : c.mButtonChanges ≠ 0) (hmax : 0 < c.mClickTimeMax) :
    c.updateClicks dt =
      { c with
        mClickTimer := 0 + dt
        mClickSeq := c.mClickSeq ++ (List.range NO_BUTTON).filter (fun i => c.button i) } := by
  unfold updateClicks
  simp only [hch, ne_eq, not_false_eq_true, if_true, hmax]
  rw [scan_eq_filter]
  rfl

/-- A tick without a button change while the timer is below the threshold only advances
the timer. -/
theorem updateClicks_waiting [LinearOrderedField α] (c : Controller α) (dt : α)
    (hch : c.mButtonChanges = 0) (hlt : c.mClickTimer < c.mClickTimeMax) :
    c.updateClicks dt = { c with mClickTimer := c.mClickTimer + dt } := by
  unfold updateClicks
  simp [hch, hlt]

/-- A tick without a button change once the timer has reached the threshold finalizes
the in-progress sequence. -/
theorem updateClicks_timeout [LinearOrderedField α] (c : Controller α) (dt : α)
    (hch : c.mButtonChanges = 0) (hge : c.mClickTimeMax ≤ c.mClickTimer) :
    c.updateClicks dt =
      { c with
        mClickSeqFinished := c.mClickSeq
        mClickSeq := []
        mClickTimer := c.mClickTimer + dt } := by
  unfold updateClicks
  simp [hch, not_lt.mpr hge]

/-- With only bit `A` set, the scan over the button ids finds `A` alone. -/
theorem pressed_single :
    ∀ A, A < NO_BUTTON →
      (List.range NO_BUTTON).filter (fun i => state (1 <<< A) i) = [A] := by
  decide

/-- With no bit set, the scan over the button ids finds nothing. -/
theorem pressed_none : (List.range NO_BUTTON).filter (fun i => state 0 i) = [] := by
  decide

/-- A delivered button word that differs from the current one: the fields after the
tick and the clearing of the masks. -/
theorem clickTick_changed [LinearOrderedField α] (c : Controller α) (v : Nat) (dt : α)
    (hch : c.mButtons ^^^ v ≠ 0) (hmax : 0 < c.mClickTimeMax) :
    (c.clickTick v dt).mButtons = v ∧
      (c.clickTick v dt).mButtonChanges = 0 ∧
      (c.clickTick v dt).mClickSeq =
        c.mClickSeq ++ (List.range NO_BUTTON).filter (fun i => state v i) ∧
      (c.clickTick v dt).mClickSeqFinished = c.mClickSeqFinished ∧
      (c.clickTick v dt).mClickTimeMax = c.mClickTimeMax ∧
      (c.clickTick v dt).mClickTimer = 0 + dt := by
  unfold clickTick
  rw [updateClicks_changed (c.setButtons v) dt hch hmax]
  exact ⟨rfl, rfl, rfl, rfl, rfl, rfl⟩

/-- One press and release of `A` from a state with no button down appends `A` once. -/
theorem tap_appends [LinearOrderedField α] (A : Nat) (hA : A < NO_BUTTON)
    (c : Controller α) (d : α × α) (hb : c.mButtons = 0) (hmax : 0 < c.mClickTimeMax) :
    (tap A c d).mButtons = 0 ∧
      (tap A c d).mButtonChanges = 0 ∧
      (tap A c d).mClickSeq = c.mClickSeq ++ [A] ∧
      (tap A c d).mClickSeqFinished = c.mClickSeqFinished ∧
      (tap A c d).mClickTimeMax = c.mClickTimeMax ∧
      (tap A c d).mClickTimer = 0 + d.2 := by
  have hbit : (1 <<< A : Nat) ≠ 0 := by
    rw [Nat.one_shiftLeft]
    exact Nat.pos_iff_ne_zero.mp (Nat.pow_pos (by decide))
  have h1 : c.mButtons ^^^ (1 <<< A) ≠ 0 := by
    rw [hb, Nat.zero_xor]
    exact hbit
  obtain ⟨p1, -, p3, p4, p5, -⟩ := clickTick_changed c (1 <<< A) d.1 h1 hmax
  have h2 : (c.clickTick (1 <<< A) d.1).mButtons ^^^ 0 ≠ 0 := by
    rw [p1, Nat.xor_zero]
    exact hbit
  obtain ⟨q1, q2, q3, q4, q5, q6⟩ :=
    clickTick_changed (c.clickTick (1 <<< A) d.1) 0 d.2 h2 (by rw [p5]; exact hmax)
  unfold tap
  refine ⟨q1, q2, ?_, q4.trans p4, q5.trans p5, q6⟩
  rw [q3, p3, pressed_single A hA, pressed_none, List.append_nil]

/-- A run of taps of `A` from a state with no button down appends `A` once per tap. -/
theorem taps_appends [LinearOrderedField α] (A : Nat) (hA : A < NO_BUTTON)
    (dts : List (α × α)) (c : Controller α) (hb : c.mButtons = 0)
    (hch : c.mButtonChanges = 0) (hmax : 0 < c.mClickTimeMax) :
    (taps A c dts).mButtons = 0 ∧
      (taps A c dts).mButtonChanges = 0 ∧
      (taps A c dts).mClickSeq = c.mClickSeq ++ List.replicate dts.length A ∧
      (taps A c dts).mClickSeqFinished = c.mClickSeqFinished ∧
      (taps A c dts).mClickTimeMax = c.mClickTimeMax := by
  induction dts generalizing c with
  | nil => exact ⟨hb, hch, by simp [taps], rfl, rfl⟩
  | cons d dts ih =>
    obtain ⟨t1, t2, t3, t4, t5, -⟩ := tap_appends A hA c d hb hmax
    obtain ⟨i1, i2, i3, i4, i5⟩ := ih (tap A c d) t1 t2 (by rw [t5]; exact hmax)
    have e : taps A c (d :: dts) = taps A (tap A c d) dts := rfl
    rw [e]
    refine ⟨i1, i2, ?_, i4.trans t4, i5.trans t5⟩
    rw [i3, t3, List.length_cons, List.replicate_succ, List.append_assoc]
    rfl

/-- A run of change-free ticks that all start below the threshold keeps both sequences. -/
theorem idle_waiting [LinearOrderedField α] (ds : List α) (c : Controller α)
    (hch : c.mButtonChanges = 0)
    (hbelow : ∀ k, k < ds.length → (idle c (ds.take k)).mClickTimer < c.mClickTimeMax) :
    (idle c ds).mButtons = c.mButtons ∧
      (idle c ds).mButtonChanges = 0 ∧
      (idle c ds).mClickSeq = c.mClickSeq ∧
      (idle c ds).mClickSeqFinished = c.mClickSeqFinished ∧
      (idle c ds).mClickTimeMax = c.mClickTimeMax := by
  induction ds generalizing c with
  | nil => exact ⟨rfl, hch, rfl, rfl, rfl⟩
  | cons d ds ih =>
    have h0 : c.mClickTimer < c.mClickTimeMax := hbelow 0 (by simp)
    have e : idle c (d :: ds) = idle (c.updateClicks d) ds := rfl
    have hw := updateClicks_waiting c d hch h0
    have hrec := ih (c.updateClicks d) (by rw [hw]; exact hch)
      (fun k hk => by
        have hk1 := hbelow (k + 1) (by simpa using hk)
        have e2 : idle c ((d :: ds).take (k + 1)) = idle (c.updateClicks d) (ds.take k) := rfl
        rw [e2] at hk1
        rw [hw] at hk1 ⊢
        exact hk1)
    rw [e]
    rw [hw] at hrec ⊢
    exact hrec

/-- The 32-bit counter of `clicks` over a run of `n` equal ids. -/
theorem count_replicate (A : Nat) (n r : Nat) :
    List.foldl (fun (r b : Nat) => (r + if (b : Int) = (A : Int) then 1 else 0) % 2 ^ 32)
        (r % 2 ^ 32) (List.replicate n A) = (r + n) % 2 ^ 32 := by
  induction n generalizing r with
  | zero => simp
  | succ n ih =>
    rw [List.replicate_succ, List.foldl_cons]
    simp only [if_true]
    rw [Nat.mod_add_mod, ih (r + 1)]
    congr 1
    omega

/-- C11: starting from a fresh controller (threshold 0.2), for every button id `A` in
0..33 and every number of taps, if `A` alone is pressed and released once per element of
`dts` (each press and each release delivered by `setButtons`, one `updateClicks` tick, the
change masks cleared), and change-free ticks `ds` follow that all start with the timer below
0.2, and the next tick starts with the timer at or above 0.2, then right after that tick
`clicks(A)` is the number of taps: exactly so below `2 ^ 32` (the counter is a 32-bit
`unsigned`), and modulo `2 ^ 32` in general. -/
theorem clicks_multi_tap [LinearOrderedField α] (pose posePrev poseAbs : Matrix4 α)
    (A : Nat) (hA : A < NO_BUTTON) (dts : List (α × α)) (ds : List α) (d : α)
    (hbelow : ∀ k, k < ds.length →
      (idle (taps A (fresh pose posePrev poseAbs) dts) (ds.take k)).mClickTimer < 0.2)
    (hup : 0.2 ≤ (idle (taps A (fresh pose posePrev poseAbs) dts) ds).mClickTimer) :
    ((idle (taps A (fresh pose posePrev poseAbs) dts) ds).updateClicks d).clickSeqFin =
        List.replicate dts.length A ∧
      ((idle (taps A (fresh pose posePrev poseAbs) dts) ds).updateClicks d).clicks A =
        dts.length % 2 ^ 32 ∧
      (dts.length < 2 ^ 32 →
        ((idle (taps A (fresh pose posePrev poseAbs) dts) ds).updateClicks d).clicks A =
          dts.length) := by
  have hfresh : (fresh pose posePrev poseAbs).mClickTimeMax = 0.2 := rfl
  have hpos : (0 : α) < (fresh pose posePrev poseAbs).mClickTimeMax := by
    rw [hfresh]
    norm_num
  obtain ⟨-, t2, t3, -, t5⟩ :=
    taps_appends A hA dts (fresh pose posePrev poseAbs) rfl rfl hpos
  have hmax : (taps A (fresh pose posePrev poseAbs) dts).mClickTimeMax = 0.2 := t5.trans hfresh
  obtain ⟨-, i2, i3, -, i5⟩ :=
    idle_waiting ds (taps A (fresh pose posePrev poseAbs) dts) t2
      (fun k hk => by rw [hmax]; exact hbelow k hk)
  have hfin : ((idle (taps A (fresh pose posePrev poseAbs) dts) ds).updateClicks d).clickSeqFin =
      List.replicate dts.length A := by
    rw [updateClicks_timeout _ d i2 (by rw [i5, hmax]; exact hup)]
    show (idle (taps A (fresh pose posePrev poseAbs) dts) ds).mClickSeq = _
    rw [i3, t3]
    rfl
  have hcount : ((idle (taps A (fresh pose posePrev poseAbs) dts) ds).updateClicks d).clicks A =
      dts.length % 2 ^ 32 := by
    unfold clicks
    have hfin2 : ((idle (taps A (fresh pose posePrev poseAbs) dts) ds).updateClicks
        d).mClickSeqFinished = List.replicate dts.length A := hfin
    rw [hfin2]
    have h := count_replicate A dts.length 0
    rw [Nat.zero_mod, Nat.zero_add] at h
    exact h
  exact ⟨hfin, hcount, fun hlt => hcount.trans (Nat.mod_eq_of_lt hlt)⟩

/-- The timer of the sample double tap stands at a tenth of a second. -/
theorem sampleDoubleTap_timer : sampleDoubleTap.mClickTimer = 1/10 := by
  have hpos : (0 : ℚ) < (fresh sampleRigid sampleRigid sampleRigid).mClickTimeMax := by
    norm_num [fresh]
  obtain ⟨t1, -, -, -, t5, -⟩ := tap_appends 1 (by decide)
    (fresh sampleRigid sampleRigid sampleRigid) ((1 : ℚ)/10, (1 : ℚ)/10) rfl hpos
  obtain ⟨-, -, -, -, -, u6⟩ := tap_appends 1 (by decide)
    (tap 1 (fresh sampleRigid sampleRigid sampleRigid) ((1 : ℚ)/10, (1 : ℚ)/10))
    ((1 : ℚ)/10, (1 : ℚ)/10) t1 (by rw [t5]; exact hpos)
  show (tap 1 (tap 1 (fresh sampleRigid sampleRigid sampleRigid) ((1 : ℚ)/10, (1 : ℚ)/10))
    ((1 : ℚ)/10, (1 : ℚ)/10)).mClickTimer = 1/10
  rw [u6]
  norm_num

/-- After one change-free tick of a tenth of a second the timer of the sample double
tap stands at the threshold. -/
theorem sampleDoubleTap_idle_timer : (idle sampleDoubleTap [1/10]).mClickTimer = 1/5 := by
  have hmax : sampleDoubleTap.mClickTimeMax = 0.2 :=
    (taps_appends 1 (by decide) _ (fresh sampleRigid sampleRigid sampleRigid) rfl rfl
      (by norm_num [fresh])).2.2.2.2
  have hch : sampleDoubleTap.mButtonChanges = 0 :=
    (taps_appends 1 (by decide) _ (fresh sampleRigid sampleRigid sampleRigid) rfl rfl
      (by norm_num [fresh])).2.1
  show (sampleDoubleTap.updateClicks (1/10)).mClickTimer = 1/5
  rw [updateClicks_waiting sampleDoubleTap (1/10) hch
    (by rw [hmax, sampleDoubleTap_timer]; norm_num)]
  show sampleDoubleTap.mClickTimer + 1/10 = 1/5
  rw [sampleDoubleTap_timer]
  norm_num

/-- Witness of C11: the double tap of button 1, one change-free tick below the
threshold, then the tick that finalizes: `clicks(1) = 2`. -/
theorem clicks_multi_tap_witness :
    (1 : Nat) < NO_BUTTON ∧
      (idle sampleDoubleTap ([] : List ℚ)).mClickTimer < 0.2 ∧
      (0.2 : ℚ) ≤ (idle sampleDoubleTap [1/10]).mClickTimer ∧
      ((idle sampleDoubleTap [1/10]).updateClicks (1/10)).clicks 1 = 2 :=
  have hbelow : (idle sampleDoubleTap ([] : List ℚ)).mClickTimer < 0.2 := by
    show sampleDoubleTap.mClickTimer < 0.2
    rw [sampleDoubleTap_timer]
    norm_num
  have hup : (0.2 : ℚ) ≤ (idle sampleDoubleTap [1/10]).mClickTimer := by
    rw [sampleDoubleTap_idle_timer]
    norm_num
  ⟨by decide, hbelow, hup,
    (clicks_multi_tap sampleRigid sampleRigid sampleRigid 1 (by decide)
      [(1/10, 1/10), (1/10, 1/10)] [1/10] (1/10)
      (fun k hk => by
        have hk0 : k = 0 := by simpa using hk
        subst hk0
        exact hbelow)
      hup).2.2 (by decide)⟩

end Controller

/-! ### The event dispatcher -/

/-- The classified event carries the native code as its type, the converted device
index, the age and the device type of the runtime's class query. -/
theorem classifyEvent_fields (vr : OpenVRHeader) (rt : PollRuntime α) (ev : VREvent α)
    (e : Event α) :
    (classifyEvent vr rt ev e).type = ev.eventType ∧
      (classifyEvent vr rt ev e).deviceIndex = uint32ToInt ev.trackedDeviceIndex ∧
      (classifyEvent vr rt ev e).age = ev.eventAgeSeconds ∧
      (classifyEvent vr rt ev e).deviceType =
        fromOVRDeviceClass (rt.GetTrackedDeviceClass ev.trackedDeviceIndex) := by
  unfold classifyEvent
  simp only [ACTIVATED, DEACTIVATED, ROLE_CHANGED, INTERACTION_STARTED, INTERACTION_ENDED,
    BUTTON_DOWN, BUTTON_UP, TOUCH, UNTOUCH]
  split_ifs with h1 h2 h3 h4 h5 h6 h7 h8 h9
  · exact ⟨h1.symm, rfl, rfl, rfl⟩
  · exact ⟨h2.symm, rfl, rfl, rfl⟩
  · exact ⟨h3.symm, rfl, rfl, rfl⟩
  · exact ⟨h4.symm, rfl, rfl, rfl⟩
  · exact ⟨h5.symm, rfl, rfl, rfl⟩
  · exact ⟨h6.symm, rfl, rfl, rfl⟩
  · exact ⟨h7.symm, rfl, rfl, rfl⟩
  · exact ⟨h8.symm, rfl, rfl, rfl⟩
  · exact ⟨h9.symm, rfl, rfl, rfl⟩
  · exact ⟨rfl, rfl, rfl, rfl⟩

/-- The automatic actions leave the event value alone. -/
theorem automaticActions_mEvent (vr : OpenVRHeader) (s : VRSystem α) :
    (automaticActions vr s).mEvent = s.mEvent := by
  unfold automaticActions
  split
  · rfl
  · split_ifs <;> rfl
  · rfl

/-- With a live session and an event in the queue, `pollEvent()` returns true, stores the
classified event and runs the automatic actions. -/
theorem pollEvent_some [Sub α] (vr : OpenVRHeader) (n : Nat) (rt : PollRuntime α)
    (s : VRSystem α) (ev : VREvent α) (hlive : s.valid = true)
    (hev : rt.PollNextEvent = some ev) :
    pollEvent vr n rt s =
      (true, automaticActions vr { s with mEvent := classifyEvent vr rt ev s.mEvent }) := by
  unfold pollEvent
  simp [hlive, hev]

/-- A value below `2 ^ 31` converts to itself. -/
theorem uint32ToInt_small (u : Nat) (hu : u < 2 ^ 31) : uint32ToInt u = (u : Int) := by
  have h32 : u % 2 ^ 32 = u := Nat.mod_eq_of_lt (by omega)
  unfold uint32ToInt
  rw [h32, if_pos hu]

/-- C12: for every event `pollEvent()` drains, if the event's device type is `HMD` and its
type is `BUTTON_DOWN` then `wearingHMD()` is true afterwards, if it is `HMD` and `BUTTON_UP`
then `wearingHMD()` is false afterwards, and for every other pair `wearingHMD()` is
unchanged. The two enumerators are distinct case labels. -/
theorem pollEvent_wearingHMD [Sub α] (vr : OpenVRHeader) (n : Nat) (rt : PollRuntime α)
    (s : VRSystem α) (ev : VREvent α) (hlive : s.valid = true)
    (hev : rt.PollNextEvent = some ev) (hlabels : BUTTON_DOWN vr ≠ BUTTON_UP vr) :
    ((pollEvent vr n rt s).2.event.deviceType = DeviceType.HMD →
        (pollEvent vr n rt s).2.event.type = BUTTON_DOWN vr →
        (pollEvent vr n rt s).2.wearingHMD = true) ∧
      ((pollEvent vr n rt s).2.event.deviceType = DeviceType.HMD →
        (pollEvent vr n rt s).2.event.type = BUTTON_UP vr →
        (pollEvent vr n rt s).2.wearingHMD = false) ∧
      (¬ ((pollEvent vr n rt s).2.event.deviceType = DeviceType.HMD ∧
          ((pollEvent vr n rt s).2.event.type = BUTTON_DOWN vr ∨
            (pollEvent vr n rt s).2.event.type = BUTTON_UP vr)) →
        (pollEvent vr n rt s).2.wearingHMD = s.wearingHMD) := by
  rw [pollEvent_some vr n rt s ev hlive hev]
  simp only [event, wearingHMD, automaticActions_mEvent]
  generalize classifyEvent vr rt ev s.mEvent = e
  unfold automaticActions
  refine ⟨?_, ?_, ?_⟩
  · intro hd ht
    simp [hd, ht]
  · intro hd ht
    have hne : ¬ e.type = BUTTON_DOWN vr := by
      rw [ht]
      exact fun h => hlabels h.symm
    simp [hd, ht, hne, hlabels.symm]
  · intro hnot
    cases hd : e.deviceType <;> simp only [hd] at hnot ⊢
    by_cases h1 : e.type = BUTTON_DOWN vr
    · exact absurd ⟨trivial, Or.inl h1⟩ hnot
    · by_cases h2 : e.type = BUTTON_UP vr
      · exact absurd ⟨trivial, Or.inr h2⟩ hnot
      · simp [h1, h2]

/-- Witness of C12: a `BUTTON_DOWN` (code 200) on device 0, the head-mounted display,
with the header's codes 200 and 201. -/
theorem pollEvent_wearingHMD_witness :
    (sampleSystem true).valid = true ∧
      (samplePollRuntime (some (sampleEvent 200 0))).PollNextEvent =
        some (sampleEvent 200 0) ∧
      BUTTON_DOWN sampleHeader ≠ BUTTON_UP sampleHeader ∧
      (pollEvent sampleHeader 64 (samplePollRuntime (some (sampleEvent 200 0)))
        (sampleSystem true)).2.wearingHMD = true :=
  ⟨rfl, rfl, by decide,
    (pollEvent_wearingHMD sampleHeader 64 (samplePollRuntime (some (sampleEvent 200 0)))
      (sampleSystem true) (sampleEvent 200 0) rfl rfl (by decide)).1
      (by
        rw [pollEvent_some sampleHeader 64 (samplePollRuntime (some (sampleEvent 200 0)))
          (sampleSystem true) (sampleEvent 200 0) rfl rfl]
        simp only [event, automaticActions_mEvent]
        exact (classifyEvent_fields sampleHeader _ (sampleEvent 200 0) _).2.2.2)
      (by
        rw [pollEvent_some sampleHeader 64 (samplePollRuntime (some (sampleEvent 200 0)))
          (sampleSystem true) (sampleEvent 200 0) rfl rfl]
        simp only [event, automaticActions_mEvent]
        exact (classifyEvent_fields sampleHeader _ (sampleEvent 200 0) _).1)⟩

/-- C13: for every native event the runtime queue delivers, `pollEvent()` returns true and
`event().type` has the numeric value of the native code: each of the eleven modelled codes
gives its named `EventType` enumerator, every other code is passed through unchanged;
`deviceIndex` is the native device index converted from `uint32_t` to `int` (the same
number below `2 ^ 31`) and `age` is the native age. -/
theorem pollEvent_passes_code [Sub α] (vr : OpenVRHeader) (n : Nat) (rt : PollRuntime α)
    (s : VRSystem α) (ev : VREvent α) (hlive : s.valid = true)
    (hev : rt.PollNextEvent = some ev) :
    (pollEvent vr n rt s).1 = true ∧
      (pollEvent vr n rt s).2.event.type = ev.eventType ∧
      ((ev.eventType = vr.VREvent_TrackedDeviceActivated →
          (pollEvent vr n rt s).2.event.type = ACTIVATED vr) ∧
        (ev.eventType = vr.VREvent_TrackedDeviceDeactivated →
          (pollEvent vr n rt s).2.event.type = DEACTIVATED vr) ∧
        (ev.eventType = vr.VREvent_TrackedDeviceRoleChanged →
          (pollEvent vr n rt s).2.event.type = ROLE_CHANGED vr) ∧
        (ev.eventType = vr.VREvent_TrackedDeviceUserInteractionStarted →
          (pollEvent vr n rt s).2.event.type = INTERACTION_STARTED vr) ∧
        (ev.eventType = vr.VREvent_TrackedDeviceUserInteractionEnded →
          (pollEvent vr n rt s).2.event.type = INTERACTION_ENDED vr) ∧
        (ev.eventType = vr.VREvent_EnterStandbyMode →
          (pollEvent vr n rt s).2.event.type = STANDBY_STARTED vr) ∧
        (ev.eventType = vr.VREvent_LeaveStandbyMode →
          (pollEvent vr n rt s).2.event.type = STANDBY_ENDED vr) ∧
        (ev.eventType = vr.VREvent_ButtonPress →
          (pollEvent vr n rt s).2.event.type = BUTTON_DOWN vr) ∧
        (ev.eventType = vr.VREvent_ButtonUnpress →
          (pollEvent vr n rt s).2.event.type = BUTTON_UP vr) ∧
        (ev.eventType = vr.VREvent_ButtonTouch →
          (pollEvent vr n rt s).2.event.type = TOUCH vr) ∧
        (ev.eventType = vr.VREvent_ButtonUntouch →
          (pollEvent vr n rt s).2.event.type = UNTOUCH vr)) ∧
      (pollEvent vr n rt s).2.event.deviceIndex = uint32ToInt ev.trackedDeviceIndex ∧
      (ev.trackedDeviceIndex < 2 ^ 31 →
        (pollEvent vr n rt s).2.event.deviceIndex = (ev.trackedDeviceIndex : Int)) ∧
      (pollEvent vr n rt s).2.event.age = ev.eventAgeSeconds := by
  rw [pollEvent_some vr n rt s ev hlive hev]
  simp only [event, automaticActions_mEvent]
  obtain ⟨ht, hi, ha, -⟩ := classifyEvent_fields vr rt ev s.mEvent
  refine ⟨trivial, ht, ?_, hi, fun hsmall => hi.trans (uint32ToInt_small _ hsmall), ha⟩
  simp only [ACTIVATED, DEACTIVATED, ROLE_CHANGED, INTERACTION_STARTED, INTERACTION_ENDED,
    STANDBY_STARTED, STANDBY_ENDED, BUTTON_DOWN, BUTTON_UP, TOUCH, UNTOUCH]
  exact ⟨fun h => ht.trans h, fun h => ht.trans h, fun h => ht.trans h, fun h => ht.trans h,
    fun h => ht.trans h, fun h => ht.trans h, fun h => ht.trans h, fun h => ht.trans h,
    fun h => ht.trans h, fun h => ht.trans h, fun h => ht.trans h⟩

/-- Witness of C13: the unmodelled native code 1700 on device 3 is passed through. -/
theorem pollEvent_passes_code_witness :
    (sampleSystem true).valid = true ∧
      (samplePollRuntime (some (sampleEvent 1700 3))).PollNextEvent =
        some (sampleEvent 1700 3) ∧
      (pollEvent sampleHeader 64 (samplePollRuntime (some (sampleEvent 1700 3)))
        (sampleSystem true)).1 = true ∧
      (pollEvent sampleHeader 64 (samplePollRuntime (some (sampleEvent 1700 3)))
        (sampleSystem true)).2.event.type = 1700 :=
  have h := pollEvent_passes_code sampleHeader 64 (samplePollRuntime (some (sampleEvent 1700 3)))
    (sampleSystem true) (sampleEvent 1700 3) rfl rfl
  ⟨rfl, rfl, h.1, h.2.1⟩

/-- C14: when no tracking session is live, `pollEvent()` returns false and
`updatePoses()` returns, and neither changes anything: the state afterwards is the state
before, with every device slot, controller slot, registry entry, the event value, the
worn flag and the view and projection matrices. -/
theorem no_session_noop [Add α] [Mul α] [Neg α] [Zero α] [One α] [Sub α]
    (vr : OpenVRHeader) (n : Nat) (prt : PollRuntime α) (rt : Runtime α) (s : VRSystem α)
    (hdead : s.valid = false) :
    pollEvent vr n prt s = (false, s) ∧ updatePoses n rt s = s := by
  constructor
  · unfold pollEvent
    simp [hdead]
  · unfold updatePoses
    simp [hdead]

/-- Witness of C14: the sample system without a session, an event waiting in the queue
and valid poses on offer. -/
theorem no_session_noop_witness :
    (sampleSystem false).valid = false ∧
      (pollEvent sampleHeader 64 (samplePollRuntime (some (sampleEvent 200 0)))
        (sampleSystem false)).1 = false ∧
      ((pollEvent sampleHeader 64 (samplePollRuntime (some (sampleEvent 200 0)))
        (sampleSystem false)).2.mTrackedDevices 0).pose = sampleRigid ∧
      ((updatePoses 64 (sampleRuntime true) (sampleSystem false)).mTrackedDevices 0).pose =
        sampleRigid :=
  have h := no_session_noop sampleHeader 64 (samplePollRuntime (some (sampleEvent 200 0)))
    (sampleRuntime true) (sampleSystem false) rfl
  ⟨rfl, by rw [h.1], by rw [h.1]; rfl, by rw [h.2]; rfl⟩

/-! ### Controller slots and the view matrices in `updatePoses()` -/

/-- One pass of the device loop copies the updated device into controller slot `i` when
the raw pose is valid and the device is classified `CONTROLLER`, and leaves the
controller slots alone otherwise. -/
theorem updateDevice_mControllers [Add α] [Mul α] [Neg α] [Zero α] [One α]
    (rt : Runtime α) (i : Nat) (s : VRSystem α) :
    (updateDevice rt i s).mControllers =
      if (rt.WaitGetPoses i).bPoseIsValid = true ∧
          fromOVRDeviceClass (rt.GetTrackedDeviceClass i) = DeviceType.CONTROLLER then
        Function.update s.mControllers i
          ((s.mControllers i).assign
            (updateDevice.slot rt s.mParentPose i (s.mTrackedDevices i)))
      else s.mControllers := by
  unfold updateDevice updateDevice.slot
  by_cases hv : (rt.WaitGetPoses i).bPoseIsValid = true
  · by_cases hc : fromOVRDeviceClass (rt.GetTrackedDeviceClass i) = DeviceType.CONTROLLER
    · simp [hv, hc]
    · by_cases hh : fromOVRDeviceClass (rt.GetTrackedDeviceClass i) = DeviceType.HMD
      · simp [hv, hh]
      · have hh2 : ¬ DeviceType.HMD = fromOVRDeviceClass (rt.GetTrackedDeviceClass i) :=
          fun h => hh h.symm
        have hc2 : ¬ DeviceType.CONTROLLER = fromOVRDeviceClass (rt.GetTrackedDeviceClass i) :=
          fun h => hc h.symm
        simp [hv, hc, hc2, hh2]
  · simp [hv]

/-- One pass of the device loop sets `mViewHMD` to the rigid inverse of the new pose when
the raw pose is valid and the device is classified `HMD`, and leaves it alone otherwise. -/
theorem updateDevice_mViewHMD [Add α] [Mul α] [Neg α] [Zero α] [One α]
    (rt : Runtime α) (i : Nat) (s : VRSystem α) :
    (updateDevice rt i s).mViewHMD =
      if (rt.WaitGetPoses i).bPoseIsValid = true ∧
          fromOVRDeviceClass (rt.GetTrackedDeviceClass i) = DeviceType.HMD then
        (s.mParentPose * toMatrix4 (rt.WaitGetPoses i).mDeviceToAbsoluteTracking).invertRigid
      else s.mViewHMD := by
  unfold updateDevice
  by_cases hv : (rt.WaitGetPoses i).bPoseIsValid = true
  · by_cases hh : fromOVRDeviceClass (rt.GetTrackedDeviceClass i) = DeviceType.HMD
    · simp [hv, hh, TrackedDevice.updatePose]
    · have hh2 : ¬ DeviceType.HMD = fromOVRDeviceClass (rt.GetTrackedDeviceClass i) :=
        fun h => hh h.symm
      by_cases hc : fromOVRDeviceClass (rt.GetTrackedDeviceClass i) = DeviceType.CONTROLLER
      · simp [hv, hc]
      · have hc2 : ¬ DeviceType.CONTROLLER = fromOVRDeviceClass (rt.GetTrackedDeviceClass i) :=
          fun h => hc h.symm
        simp [hv, hh, hc2, hh2]
  · simp [hv]

/-- The controller slots after the device loop over the first `n` indices. -/
theorem deviceLoop_controllers [Add α] [Mul α] [Neg α] [Zero α] [One α]
    (rt : Runtime α) (s : VRSystem α) (n : Nat) (j : Nat) :
    ((List.range n).foldl (fun s i => updateDevice rt i s) s).mControllers j =
      if j < n ∧ (rt.WaitGetPoses j).bPoseIsValid = true ∧
          fromOVRDeviceClass (rt.GetTrackedDeviceClass j) = DeviceType.CONTROLLER then
        (s.mControllers j).assign (updateDevice.slot rt s.mParentPose j (s.mTrackedDevices j))
      else s.mControllers j := by
  induction n with
  | zero => simp
  | succ n ih =>
    simp only [List.range_succ, List.foldl_append, List.foldl_cons, List.foldl_nil]
    obtain ⟨hslot, -, hparent, -⟩ := deviceLoop_spec rt s n
    rw [updateDevice_mControllers, hparent, hslot n]
    simp only [lt_irrefl, if_false]
    by_cases hj : j = n
    · subst hj
      have hself : ((List.range j).foldl (fun s i => updateDevice rt i s) s).mControllers j =
          s.mControllers j := by
        rw [ih]
        simp
      by_cases hc : (rt.WaitGetPoses j).bPoseIsValid = true ∧
          fromOVRDeviceClass (rt.GetTrackedDeviceClass j) = DeviceType.CONTROLLER
      · simp [hc, hself]
      · have hc2 : ¬ (j < j + 1 ∧ (rt.WaitGetPoses j).bPoseIsValid = true ∧
            fromOVRDeviceClass (rt.GetTrackedDeviceClass j) = DeviceType.CONTROLLER) :=
          fun h => hc h.2
        rw [if_neg hc, if_neg hc2, hself]
    · have hlt : j < n + 1 ↔ j < n := by omega
      have hstep : (if (rt.WaitGetPoses n).bPoseIsValid = true ∧
            fromOVRDeviceClass (rt.GetTrackedDeviceClass n) = DeviceType.CONTROLLER then
          Function.update ((List.range n).foldl (fun s i => updateDevice rt i s) s).mControllers n
            ((((List.range n).foldl (fun s i => updateDevice rt i s) s).mControllers n).assign
              (updateDevice.slot rt s.mParentPose n (s.mTrackedDevices n)))
          else ((List.range n).foldl (fun s i => updateDevice rt i s) s).mControllers) j =
          ((List.range n).foldl (fun s i => updateDevice rt i s) s).mControllers j := by
        split_ifs
        · exact Function.update_noteq hj _ _
        · rfl
      rw [hstep, ih]
      simp only [hlt]

/-- The matrix `mViewHMD` after the device loop over the first `n` indices, when at most
the device `j` has a valid raw pose and is classified `HMD` among them. -/
theorem deviceLoop_mViewHMD [Add α] [Mul α] [Neg α] [Zero α] [One α]
    (rt : Runtime α) (s : VRSystem α) (j : Nat) (n : Nat)
    (hunique : ∀ k, k < n → (rt.WaitGetPoses k).bPoseIsValid = true →
      fromOVRDeviceClass (rt.GetTrackedDeviceClass k) = DeviceType.HMD → k = j) :
    ((List.range n).foldl (fun s i => updateDevice rt i s) s).mViewHMD =
      if j < n ∧ (rt.WaitGetPoses j).bPoseIsValid = true ∧
          fromOVRDeviceClass (rt.GetTrackedDeviceClass j) = DeviceType.HMD then
        (s.mParentPose * toMatrix4 (rt.WaitGetPoses j).mDeviceToAbsoluteTracking).invertRigid
      else s.mViewHMD := by
  induction n with
  | zero => simp
  | succ n ih =>
    simp only [List.range_succ, List.foldl_append, List.foldl_cons, List.foldl_nil]
    obtain ⟨-, -, hparent, -⟩ := deviceLoop_spec rt s n
    have ih2 := ih (fun k hk => hunique k (Nat.lt_succ_of_lt hk))
    rw [updateDevice_mViewHMD, hparent]
    by_cases hn : (rt.WaitGetPoses n).bPoseIsValid = true ∧
        fromOVRDeviceClass (rt.GetTrackedDeviceClass n) = DeviceType.HMD
    · have hnj : n = j := hunique n (Nat.lt_succ_self n) hn.1 hn.2
      subst hnj
      rw [if_pos hn, if_pos ⟨Nat.lt_succ_self n, hn⟩]
    · rw [if_neg hn, ih2]
      by_cases hj : j < n ∧ (rt.WaitGetPoses j).bPoseIsValid = true ∧
          fromOVRDeviceClass (rt.GetTrackedDeviceClass j) = DeviceType.HMD
      · rw [if_pos hj, if_pos ⟨Nat.lt_succ_of_lt hj.1, hj.2⟩]
      · have hj2 : ¬ (j < n + 1 ∧ (rt.WaitGetPoses j).bPoseIsValid = true ∧
            fromOVRDeviceClass (rt.GetTrackedDeviceClass j) = DeviceType.HMD) := by
          rintro ⟨hlt, hv⟩
          rcases Nat.lt_succ_iff_lt_or_eq.mp hlt with h | h
          · exact hj ⟨h, hv⟩
          · subst h
            exact hn hv
        rw [if_neg hj, if_neg hj2]

/-- With a live session `updatePoses()` is the registry refresh, the device loop and the
two passes of the eye loop. -/
theorem updatePoses_live [Add α] [Mul α] [Neg α] [Zero α] [One α]
    (n : Nat) (rt : Runtime α) (s : VRSystem α) (hlive : s.valid = true) :
    updatePoses n rt s =
      updateEye rt 1 (updateEye rt 0
        ((List.range n).foldl (fun s i => updateDevice rt i s)
          { s with
            mDeviceIndices := sortDeviceIndices (collectDeviceIndices rt s.mDeviceIndices) })) := by
  unfold updatePoses
  simp only [hlive, Bool.not_true, Bool.false_eq_true, if_false]
  rfl

/-- The device loop leaves the near and far planes and the eye-distance scale alone. -/
theorem deviceLoop_frame_eye [Add α] [Mul α] [Neg α] [Zero α] [One α]
    (rt : Runtime α) (s : VRSystem α) (n : Nat) :
    ((List.range n).foldl (fun s i => updateDevice rt i s) s).mNear = s.mNear ∧
      ((List.range n).foldl (fun s i => updateDevice rt i s) s).mFar = s.mFar ∧
      ((List.range n).foldl (fun s i => updateDevice rt i s) s).mEyeDistScale =
        s.mEyeDistScale := by
  induction n with
  | zero => simp
  | succ n ih =>
    simp only [List.range_succ, List.foldl_append, List.foldl_cons, List.foldl_nil]
    obtain ⟨h1, h2, h3⟩ := ih
    have hstep : ∀ t : VRSystem α, (updateDevice rt n t).mNear = t.mNear ∧
        (updateDevice rt n t).mFar = t.mFar ∧
        (updateDevice rt n t).mEyeDistScale = t.mEyeDistScale := by
      intro t
      unfold updateDevice
      by_cases hv : (rt.WaitGetPoses n).bPoseIsValid = true
      · simp only [hv, if_true]
        split_ifs <;> exact ⟨rfl, rfl, rfl⟩
      · simp only [hv, if_false]
        exact ⟨rfl, rfl, rfl⟩
    obtain ⟨g1, g2, g3⟩ := hstep ((List.range n).foldl (fun s i => updateDevice rt i s) s)
    exact ⟨g1.trans h1, g2.trans h2, g3.trans h3⟩

/-- The per-eye matrices after `updatePoses()` with a live session: the head-to-eye
offset is the runtime's transform with its x translation scaled by `mEyeDistScale`, the
eye-to-head matrix is its rigid inverse, the view is eye-to-head times `mViewHMD`, and
`mViewHMD` is the one the device loop left. -/
theorem updatePoses_eyes [Add α] [Mul α] [Neg α] [Zero α] [One α]
    (n : Nat) (rt : Runtime α) (s : VRSystem α) (hlive : s.valid = true)
    (i : Nat) (hi : i < 2) :
    (updatePoses n rt s).mHeadToEye i =
        { toMatrix4 (rt.GetEyeToHeadTransform (toOVREye i)) with
          m12 := (toMatrix4 (rt.GetEyeToHeadTransform (toOVREye i))).m12 * s.mEyeDistScale } ∧
      (updatePoses n rt s).mEyeToHead i = ((updatePoses n rt s).mHeadToEye i).inverseRigid ∧
      (updatePoses n rt s).mView i =
        (updatePoses n rt s).mEyeToHead i * (updatePoses n rt s).mViewHMD ∧
      (updatePoses n rt s).mViewHMD =
        ((List.range n).foldl (fun s i => updateDevice rt i s)
          { s with
            mDeviceIndices :=
              sortDeviceIndices (collectDeviceIndices rt s.mDeviceIndices) }).mViewHMD := by
  obtain ⟨-, -, hscale⟩ := deviceLoop_frame_eye rt
    { s with mDeviceIndices := sortDeviceIndices (collectDeviceIndices rt s.mDeviceIndices) } n
  have hscale2 : ((List.range n).foldl (fun s i => updateDevice rt i s)
      { s with
        mDeviceIndices :=
          sortDeviceIndices (collectDeviceIndices rt s.mDeviceIndices) }).mEyeDistScale =
      s.mEyeDistScale := hscale
  rw [updatePoses_live n rt s hlive]
  interval_cases i
  · refine ⟨?_, rfl, rfl, rfl⟩
    exact congrArg
      (fun x => { toMatrix4 (rt.GetEyeToHeadTransform (toOVREye 0)) with
        m12 := (toMatrix4 (rt.GetEyeToHeadTransform (toOVREye 0))).m12 * x }) hscale2
  · refine ⟨?_, rfl, rfl, rfl⟩
    exact congrArg
      (fun x => { toMatrix4 (rt.GetEyeToHeadTransform (toOVREye 1)) with
        m12 := (toMatrix4 (rt.GetEyeToHeadTransform (toOVREye 1))).m12 * x }) hscale2

/-- C19: copying a generic `TrackedDevice` into a `Controller` slot sets the slot's
type, pose, posePrev and poseAbs to the device's and leaves the button bits, touch bits,
both change masks, axis positions, axis velocities, both click sequences, the click timer
(and its threshold) and the hand field unchanged; `updatePoses()` does this copy for
every device with a valid raw pose that is classified `CONTROLLER`. -/
theorem assign_keeps_input_state [Add α] [Mul α] [Neg α] [Zero α] [One α]
    (c : Controller α) (d : TrackedDevice α) (n : Nat) (rt : Runtime α) (s : VRSystem α)
    (i : Nat) :
    ((c.assign d).type = d.type ∧ (c.assign d).pose = d.pose ∧
        (c.assign d).posePrev = d.posePrev ∧ (c.assign d).poseAbs = d.poseAbs ∧
        (c.assign d).mButtons = c.mButtons ∧ (c.assign d).mTouches = c.mTouches ∧
        (c.assign d).mButtonChanges = c.mButtonChanges ∧
        (c.assign d).mTouchChanges = c.mTouchChanges ∧
        (c.assign d).mAxes = c.mAxes ∧ (c.assign d).mAxisChanges = c.mAxisChanges ∧
        (c.assign d).mClickSeq = c.mClickSeq ∧
        (c.assign d).mClickSeqFinished = c.mClickSeqFinished ∧
        (c.assign d).mClickTimer = c.mClickTimer ∧
        (c.assign d).mClickTimeMax = c.mClickTimeMax ∧
        (c.assign d).mHand = c.mHand) ∧
      (s.valid = true → i < n → (rt.WaitGetPoses i).bPoseIsValid = true →
        fromOVRDeviceClass (rt.GetTrackedDeviceClass i) = DeviceType.CONTROLLER →
        (updatePoses n rt s).mControllers i =
          (s.mControllers i).assign ((updatePoses n rt s).mTrackedDevices i)) := by
  refine ⟨⟨rfl, rfl, rfl, rfl, rfl, rfl, rfl, rfl, rfl, rfl, rfl, rfl, rfl, rfl, rfl⟩, ?_⟩
  intro hlive hi hvalid hclass
  obtain ⟨hslot, -, -, -⟩ := updatePoses_spec n rt s hlive
  rw [hslot i, if_pos hi, updatePoses_live n rt s hlive]
  show ((List.range n).foldl (fun s i => updateDevice rt i s) _).mControllers i = _
  rw [deviceLoop_controllers, if_pos ⟨hi, hvalid, hclass⟩]

/-- Witness of C19: device 3 of the sample runtime is a controller with a valid pose. -/
theorem assign_keeps_input_state_witness :
    (sampleSystem true).valid = true ∧ 3 < 64 ∧
      ((sampleRuntime true).WaitGetPoses 3).bPoseIsValid = true ∧
      fromOVRDeviceClass ((sampleRuntime true).GetTrackedDeviceClass 3) =
        DeviceType.CONTROLLER ∧
      (updatePoses 64 (sampleRuntime true) (sampleSystem true)).mControllers 3 =
        ((sampleSystem true).mControllers 3).assign
          ((updatePoses 64 (sampleRuntime true) (sampleSystem true)).mTrackedDevices 3) :=
  ⟨rfl, by decide, rfl, by decide,
    (assign_keeps_input_state (sampleController (0, 0)) sampleDevice 64 (sampleRuntime true)
      (sampleSystem true) 3).2 rfl (by decide) rfl (by decide)⟩

/-- C20: after every `updatePoses()` with a live session, for each eye `i`,
`eyeToHead(i) = inverseRigid(headToEye(i))` and `view(i) = eyeToHead(i) * viewHMD()`, with
`headToEye(i)` the runtime's offset scaled in x; hence, when `j` is the device classified
as `HMD` in this update (valid raw pose, the only such device) and its pose `H` and the
scaled head-to-eye offset are rigid, `view(i) * (H * headToEye(i))` is the identity. -/
theorem updatePoses_eye_view [CommRing α] (n : Nat) (rt : Runtime α) (s : VRSystem α)
    (hlive : s.valid = true) (i : Nat) (hi : i < 2) :
    (updatePoses n rt s).eyeToHead i = ((updatePoses n rt s).headToEye i).inverseRigid ∧
      (updatePoses n rt s).view i =
        (updatePoses n rt s).eyeToHead i * (updatePoses n rt s).viewHMD ∧
      (∀ j, j < n → (rt.WaitGetPoses j).bPoseIsValid = true →
        fromOVRDeviceClass (rt.GetTrackedDeviceClass j) = DeviceType.HMD →
        (∀ k, k < n → (rt.WaitGetPoses k).bPoseIsValid = true →
          fromOVRDeviceClass (rt.GetTrackedDeviceClass k) = DeviceType.HMD → k = j) →
        Matrix4.Rigid ((updatePoses n rt s).trackedDevice j).pose →
        Matrix4.Rigid ((updatePoses n rt s).headToEye i) →
        (updatePoses n rt s).view i *
            (((updatePoses n rt s).trackedDevice j).pose * (updatePoses n rt s).headToEye i) =
          Matrix4.identity) := by
  obtain ⟨-, he2h, hview, hvhmd⟩ := updatePoses_eyes n rt s hlive i hi
  refine ⟨he2h, hview, ?_⟩
  intro j hj hvalid hclass hunique hH hE
  obtain ⟨-, hpose, -, -⟩ := updatePoses_valid_slot n rt s j hlive hj hvalid
  have hV : (updatePoses n rt s).mViewHMD =
      ((updatePoses n rt s).mTrackedDevices j).pose.inverseRigid := by
    rw [hvhmd, deviceLoop_mViewHMD rt _ j n hunique, if_pos ⟨hj, hvalid, hclass⟩, hpose]
    rfl
  simp only [view, headToEye, trackedDevice] at hH hE ⊢
  rw [hview, he2h, hV, Matrix4.mul_assoc4,
    ← Matrix4.mul_assoc4 ((updatePoses n rt s).mTrackedDevices j).pose.inverseRigid,
    Matrix4.inverseRigid_mul_self hH, Matrix4.identity_mul, Matrix4.inverseRigid_mul_self hE]

/-- Device 0 is the only device the sample runtime classifies as `HMD`. -/
theorem sampleRuntime_hmd_unique (k : Nat)
    (h : fromOVRDeviceClass ((sampleRuntime true).GetTrackedDeviceClass k) = DeviceType.HMD) :
    k = 0 := by
  by_contra hk
  have hclass : (sampleRuntime true).GetTrackedDeviceClass k =
      if k = 3 ∨ k = 5 then ETrackedDeviceClass.TrackedDeviceClass_Controller
      else ETrackedDeviceClass.TrackedDeviceClass_GenericTracker := by
    show (if k = 0 then _ else _) = _
    rw [if_neg hk]
  rw [hclass] at h
  split_ifs at h <;> simp [fromOVRDeviceClass] at h

/-- The pose of device 0 after the sample update is rigid. -/
theorem sampleUpdate_pose_rigid :
    Matrix4.Rigid
      ((updatePoses 64 (sampleRuntime true) (sampleSystem true)).trackedDevice 0).pose := by
  obtain ⟨-, hpose, -, -⟩ :=
    updatePoses_valid_slot 64 (sampleRuntime true) (sampleSystem true) 0 rfl (by decide) rfl
  show Matrix4.Rigid ((updatePoses 64 (sampleRuntime true) (sampleSystem true)).mTrackedDevices
    0).pose
  rw [hpose]
  show Matrix4.Rigid (Matrix4.mul sampleTranslation (toMatrix4 sampleRawPose))
  norm_num [Matrix4.Rigid, Matrix4.Orthonormal3, Matrix4.AffineRow, Matrix4.mul,
    sampleTranslation, toMatrix4, sampleRawPose]

/-- The head-to-eye offset of eye 0 after the sample update is rigid. -/
theorem sampleUpdate_headToEye_rigid :
    Matrix4.Rigid ((updatePoses 64 (sampleRuntime true) (sampleSystem true)).headToEye 0) := by
  obtain ⟨hh2e, -, -, -⟩ :=
    updatePoses_eyes 64 (sampleRuntime true) (sampleSystem true) rfl 0 (by decide)
  show Matrix4.Rigid ((updatePoses 64 (sampleRuntime true) (sampleSystem true)).mHeadToEye 0)
  rw [hh2e]
  norm_num [Matrix4.Rigid, Matrix4.Orthonormal3, Matrix4.AffineRow, toMatrix4, sampleRawPose,
    sampleRuntime, sampleSystem]

/-- Witness of C20: eye 0 and the head-mounted display at device 0 of the sample update. -/
theorem updatePoses_eye_view_witness :
    (sampleSystem true).valid = true ∧ 0 < 2 ∧
      Matrix4.Rigid
        ((updatePoses 64 (sampleRuntime true) (sampleSystem true)).trackedDevice 0).pose ∧
      Matrix4.Rigid ((updatePoses 64 (sampleRuntime true) (sampleSystem true)).headToEye 0) ∧
      (updatePoses 64 (sampleRuntime true) (sampleSystem true)).view 0 *
          (((updatePoses 64 (sampleRuntime true) (sampleSystem true)).trackedDevice 0).pose *
            (updatePoses 64 (sampleRuntime true) (sampleSystem true)).headToEye 0) =
        Matrix4.identity :=
  ⟨rfl, by decide, sampleUpdate_pose_rigid, sampleUpdate_headToEye_rigid,
    (updatePoses_eye_view 64 (sampleRuntime true) (sampleSystem true) rfl 0 (by decide)).2.2
      0 (by decide) rfl rfl (fun k _ _ h => sampleRuntime_hmd_unique k h)
      sampleUpdate_pose_rigid sampleUpdate_headToEye_rigid⟩

namespace Controller

/-! ### Single ticks of the click-sequence recognizer -/

/-- C24: on an `updateClicks(dt)` tick whose button change mask is non-zero (threshold
above zero, as the 0.2 of every controller), the in-progress sequence is extended by
exactly the ids of the currently pressed buttons among 0..33 in ascending order, the
finalized sequence is unchanged, and the timer equals `dt` afterwards, whatever it was. -/
theorem updateClicks_on_change [LinearOrderedField α] (c : Controller α) (dt : α)
    (hch : c.mButtonChanges ≠ 0) (hmax : 0 < c.mClickTimeMax) :
    (c.updateClicks dt).clickSeq =
        c.clickSeq ++ (List.range NO_BUTTON).filter (fun i => c.button i) ∧
      List.Sorted (fun a b => a < b) ((List.range NO_BUTTON).filter (fun i => c.button i)) ∧
      (∀ i, i ∈ (List.range NO_BUTTON).filter (fun i => c.button i) ↔
        i < NO_BUTTON ∧ c.button i = true) ∧
      (c.updateClicks dt).clickSeqFin = c.clickSeqFin ∧
      (c.updateClicks dt).mClickTimer = dt := by
  rw [updateClicks_changed c dt hch hmax]
  refine ⟨rfl, ?_, ?_, rfl, ?_⟩
  · exact List.Pairwise.sublist (List.filter_sublist _) (List.sorted_lt_range NO_BUTTON)
  · intro i
    simp [List.mem_filter, List.mem_range]
  · show (0 : α) + dt = dt
    rw [zero_add]

/-- Witness of C24: the sample controller after `setButtons(5)` (buttons 0 and 2 down)
and a tick of a quarter second. -/
theorem updateClicks_on_change_witness :
    ((sampleController (0, 0)).setButtons 5).mButtonChanges ≠ 0 ∧
      (0 : ℚ) < ((sampleController (0, 0)).setButtons 5).mClickTimeMax ∧
      ((((sampleController (0, 0)).setButtons 5).updateClicks (1/4)).clickSeq =
        ((sampleController (0, 0)).setButtons 5).clickSeq ++
          (List.range NO_BUTTON).filter
            (fun i => ((sampleController (0, 0)).setButtons 5).button i)) ∧
      (((sampleController (0, 0)).setButtons 5).updateClicks (1/4)).mClickTimer = 1/4 :=
  have h := updateClicks_on_change ((sampleController (0, 0)).setButtons 5) (1/4)
    (by decide) (by norm_num [sampleController, setButtons])
  ⟨by decide, by norm_num [sampleController, setButtons], h.1, h.2.2.2.2⟩

/-- C25: on an `updateClicks(dt)` tick with no button change, if the timer has reached
the threshold the finalized sequence becomes the in-progress sequence as it was, the
in-progress sequence becomes empty and the timer grows by `dt`; if the timer is below the
threshold neither sequence is modified. -/
theorem updateClicks_no_change [LinearOrderedField α] (c : Controller α) (dt : α)
    (hch : c.mButtonChanges = 0) :
    (c.mClickTimeMax ≤ c.mClickTimer →
        (c.updateClicks dt).clickSeqFin = c.clickSeq ∧
          (c.updateClicks dt).clickSeq = [] ∧
          (c.updateClicks dt).mClickTimer = c.mClickTimer + dt) ∧
      (c.mClickTimer < c.mClickTimeMax →
        (c.updateClicks dt).clickSeq = c.clickSeq ∧
          (c.updateClicks dt).clickSeqFin = c.clickSeqFin) := by
  constructor
  · intro hge
    rw [updateClicks_timeout c dt hch hge]
    exact ⟨rfl, rfl, rfl⟩
  · intro hlt
    rw [updateClicks_waiting c dt hch hlt]
    exact ⟨rfl, rfl⟩

/-- Witness of C25: the sample double tap, whose timer stands below the threshold. -/
theorem updateClicks_no_change_witness :
    sampleDoubleTap.mButtonChanges = 0 ∧
      sampleDoubleTap.mClickTimer < sampleDoubleTap.mClickTimeMax ∧
      (sampleDoubleTap.updateClicks (1/10)).clickSeq = sampleDoubleTap.clickSeq ∧
      (sampleDoubleTap.updateClicks (1/10)).clickSeqFin = sampleDoubleTap.clickSeqFin :=
  have hch : sampleDoubleTap.mButtonChanges = 0 :=
    (taps_appends 1 (by decide) _ (fresh sampleRigid sampleRigid sampleRigid) rfl rfl
      (by norm_num [fresh])).2.1
  have hmax : sampleDoubleTap.mClickTimeMax = 0.2 :=
    (taps_appends 1 (by decide) _ (fresh sampleRigid sampleRigid sampleRigid) rfl rfl
      (by norm_num [fresh])).2.2.2.2
  have hlt : sampleDoubleTap.mClickTimer < sampleDoubleTap.mClickTimeMax := by
    rw [hmax, sampleDoubleTap_timer]
    norm_num
  ⟨hch, hlt, (updateClicks_no_change sampleDoubleTap (1/10) hch).2 hlt⟩

/-- The 32-bit counter of `clicks` over the empty finalized sequence is zero. -/
theorem clicks_of_nil (c : Controller α) (b : Int) (h : c.mClickSeqFinished = []) :
    c.clicks b = 0 := by
  unfold clicks
  rw [h]
  rfl

/-- C29: on two consecutive `updateClicks` ticks that both have no button change and the
timer at or above the threshold, the first tick makes the in-progress sequence readable
as the finalized one, and the second overwrites it with the already cleared in-progress
sequence: afterwards `clickSeqFin()` is empty and `clicks(b) = 0` for every button. -/
theorem finalized_readable_one_tick [LinearOrderedField α] (c : Controller α) (d1 d2 : α)
    (hch : c.mButtonChanges = 0) (hge1 : c.mClickTimeMax ≤ c.mClickTimer)
    (hge2 : (c.updateClicks d1).mClickTimeMax ≤ (c.updateClicks d1).mClickTimer) :
    (c.updateClicks d1).clickSeqFin = c.clickSeq ∧
      ((c.updateClicks d1).updateClicks d2).clickSeqFin = [] ∧
      ∀ b : Int, ((c.updateClicks d1).updateClicks d2).clicks b = 0 := by
  have h1 := updateClicks_timeout c d1 hch hge1
  have hch1 : (c.updateClicks d1).mButtonChanges = 0 := by
    rw [h1]
    exact hch
  have hseq1 : (c.updateClicks d1).mClickSeq = [] := by
    rw [h1]
  have h2 := updateClicks_timeout (c.updateClicks d1) d2 hch1 hge2
  have hfin2 : ((c.updateClicks d1).updateClicks d2).mClickSeqFinished = [] := by
    rw [h2]
    exact hseq1
  refine ⟨?_, hfin2, fun b => clicks_of_nil _ b hfin2⟩
  rw [h1]
  rfl

/-- Witness of C29: the timed-out sample controller and two ticks of a tenth of a
second. -/
theorem finalized_readable_one_tick_witness :
    sampleTimedOut.mButtonChanges = 0 ∧
      sampleTimedOut.mClickTimeMax ≤ sampleTimedOut.mClickTimer ∧
      (sampleTimedOut.updateClicks (1/10)).mClickTimeMax ≤
        (sampleTimedOut.updateClicks (1/10)).mClickTimer ∧
      (sampleTimedOut.updateClicks (1/10)).clickSeqFin = [1, 1] ∧
      ((sampleTimedOut.updateClicks (1/10)).updateClicks (1/10)).clickSeqFin = [] :=
  have hge1 : sampleTimedOut.mClickTimeMax ≤ sampleTimedOut.mClickTimer := by
    norm_num [sampleTimedOut, sampleController]
  have hge2 : (sampleTimedOut.updateClicks (1/10)).mClickTimeMax ≤
      (sampleTimedOut.updateClicks (1/10)).mClickTimer := by
    rw [updateClicks_timeout sampleTimedOut (1/10) rfl hge1]
    norm_num [sampleTimedOut, sampleController]
  have h := finalized_readable_one_tick sampleTimedOut (1/10) (1/10) rfl hge1 hge2
  ⟨rfl, hge1, hge2, h.1, h.2.1⟩

/-! ### A long hold -/

/-- During change-free ticks after a single press of `A`, the two sequences hold `A` at
most once between them: in progress, finalized, or dropped. -/
theorem idle_single [LinearOrderedField α] (A : Nat) (ds : List α) (c : Controller α)
    (hch : c.mButtonChanges = 0)
    (hc : (c.mClickSeq = [A] ∧ c.mClickSeqFinished = []) ∨
      (c.mClickSeq = [] ∧ c.mClickSeqFinished = [A]) ∨
      (c.mClickSeq = [] ∧ c.mClickSeqFinished = [])) :
    ((idle c ds).mClickSeq = [A] ∧ (idle c ds).mClickSeqFinished = []) ∨
      ((idle c ds).mClickSeq = [] ∧ (idle c ds).mClickSeqFinished = [A]) ∨
      ((idle c ds).mClickSeq = [] ∧ (idle c ds).mClickSeqFinished = []) := by
  induction ds generalizing c with
  | nil => exact hc
  | cons d ds ih =>
    have e : idle c (d :: ds) = idle (c.updateClicks d) ds := rfl
    rw [e]
    by_cases hlt : c.mClickTimer < c.mClickTimeMax
    · have hw := updateClicks_waiting c d hch hlt
      apply ih
      · rw [hw]
        exact hch
      · rw [hw]
        exact hc
    · have ht := updateClicks_timeout c d hch (not_lt.mp hlt)
      apply ih
      · rw [ht]
        exact hch
      · rw [ht]
        rcases hc with ⟨h1, -⟩ | ⟨h1, -⟩ | ⟨h1, -⟩
        · exact Or.inr (Or.inl ⟨rfl, h1⟩)
        · exact Or.inr (Or.inr ⟨rfl, h1⟩)
        · exact Or.inr (Or.inr ⟨rfl, h1⟩)

/-- Change-free ticks leave the change mask at zero. -/
theorem idle_changes_zero [LinearOrderedField α] (ds : List α) (c : Controller α)
    (hch : c.mButtonChanges = 0) : (idle c ds).mButtonChanges = 0 := by
  induction ds generalizing c with
  | nil => exact hch
  | cons d ds ih =>
    have e : idle c (d :: ds) = idle (c.updateClicks d) ds := rfl
    rw [e]
    apply ih
    by_cases hlt : c.mClickTimer < c.mClickTimeMax
    · rw [updateClicks_waiting c d hch hlt]
      exact hch
    · rw [updateClicks_timeout c d hch (not_lt.mp hlt)]
      exact hch

/-- C26: a long hold counts once. From a fresh controller, button `A` (id in 0..33) is
pressed once (`setButtons`, one tick, masks cleared) and then held over change-free ticks.
The press appends `A` once; over any run of held ticks `A` is never appended again (the
two sequences hold it at most once between them); while the ticks start below the
threshold the in-progress sequence stays `[A]`, and the tick that finalizes it gives
`clicks(A) = 1`. -/
theorem long_hold_counts_once [LinearOrderedField α] (pose posePrev poseAbs : Matrix4 α)
    (A : Nat) (hA : A < NO_BUTTON) (dt0 : α) :
    ((fresh pose posePrev poseAbs).clickTick (1 <<< A) dt0).clickSeq = [A] ∧
      ((fresh pose posePrev poseAbs).clickTick (1 <<< A) dt0).button A = true ∧
      (∀ ds : List α,
        ((idle ((fresh pose posePrev poseAbs).clickTick (1 <<< A) dt0) ds).mButtonChanges = 0) ∧
        (((idle ((fresh pose posePrev poseAbs).clickTick (1 <<< A) dt0) ds).clickSeq = [A] ∧
            (idle ((fresh pose posePrev poseAbs).clickTick (1 <<< A) dt0) ds).clickSeqFin = []) ∨
          ((idle ((fresh pose posePrev poseAbs).clickTick (1 <<< A) dt0) ds).clickSeq = [] ∧
            (idle ((fresh pose posePrev poseAbs).clickTick (1 <<< A) dt0) ds).clickSeqFin = [A]) ∨
          ((idle ((fresh pose posePrev poseAbs).clickTick (1 <<< A) dt0) ds).clickSeq = [] ∧
            (idle ((fresh pose posePrev poseAbs).clickTick (1 <<< A) dt0) ds).clickSeqFin =
              []))) ∧
      (∀ (ds : List α) (d : α),
        (∀ k, k < ds.length →
          (idle ((fresh pose posePrev poseAbs).clickTick (1 <<< A) dt0)
            (ds.take k)).mClickTimer < 0.2) →
        (0.2 : α) ≤
          (idle ((fresh pose posePrev poseAbs).clickTick (1 <<< A) dt0) ds).mClickTimer →
        (idle ((fresh pose posePrev poseAbs).clickTick (1 <<< A) dt0) ds).clickSeq = [A] ∧
          ((idle ((fresh pose posePrev poseAbs).clickTick (1 <<< A) dt0) ds).updateClicks
            d).clickSeqFin = [A] ∧
          ((idle ((fresh pose posePrev poseAbs).clickTick (1 <<< A) dt0) ds).updateClicks
            d).clicks A = 1) := by
  have hfresh : (fresh pose posePrev poseAbs).mClickTimeMax = 0.2 := rfl
  have hpos : (0 : α) < (fresh pose posePrev poseAbs).mClickTimeMax := by
    rw [hfresh]
    norm_num
  have hbit : (1 <<< A : Nat) ≠ 0 := by
    rw [Nat.one_shiftLeft]
    exact Nat.pos_iff_ne_zero.mp (Nat.pow_pos (by decide))
  have hx : (fresh pose posePrev poseAbs).mButtons ^^^ (1 <<< A) ≠ 0 := by
    show 0 ^^^ (1 <<< A) ≠ 0
    rw [Nat.zero_xor]
    exact hbit
  obtain ⟨p1, p2, p3, p4, p5, -⟩ :=
    clickTick_changed (fresh pose posePrev poseAbs) (1 <<< A) dt0 hx hpos
  have hseq : ((fresh pose posePrev poseAbs).clickTick (1 <<< A) dt0).mClickSeq = [A] := by
    rw [p3, pressed_single A hA]
    rfl
  have hfin : ((fresh pose posePrev poseAbs).clickTick (1 <<< A) dt0).mClickSeqFinished = [] :=
    p4
  have hmax : ((fresh pose posePrev poseAbs).clickTick (1 <<< A) dt0).mClickTimeMax = 0.2 :=
    p5.trans hfresh
  have hbutton : ((fresh pose posePrev poseAbs).clickTick (1 <<< A) dt0).button A = true := by
    unfold button
    rw [p1, state_eq_testBit _ A (by unfold NO_BUTTON at hA; omega), Nat.one_shiftLeft,
      Nat.testBit_two_pow_self]
  refine ⟨hseq, hbutton, ?_, ?_⟩
  · intro ds
    constructor
    · exact idle_changes_zero ds _ p2
    · exact idle_single A ds _ p2 (Or.inl ⟨hseq, hfin⟩)
  · intro ds d hbelow hup
    obtain ⟨-, i2, i3, i4, i5⟩ :=
      idle_waiting ds ((fresh pose posePrev poseAbs).clickTick (1 <<< A) dt0) p2
        (fun k hk => by rw [hmax]; exact hbelow k hk)
    have hfinal :
        ((idle ((fresh pose posePrev poseAbs).clickTick (1 <<< A) dt0) ds).updateClicks
          d).mClickSeqFinished = [A] := by
      rw [updateClicks_timeout _ d i2 (by rw [i5, hmax]; exact hup)]
      show (idle ((fresh pose posePrev poseAbs).clickTick (1 <<< A) dt0) ds).mClickSeq = [A]
      rw [i3, hseq]
    refine ⟨i3.trans hseq, hfinal, ?_⟩
    unfold clicks
    rw [hfinal]
    simp

/-- The fields of the sample hold after the press tick. -/
theorem sampleHold_fields :
    sampleHold.mButtonChanges = 0 ∧ sampleHold.mClickTimeMax = 0.2 ∧
      sampleHold.mClickTimer = 1/10 := by
  have hx : (fresh sampleRigid sampleRigid sampleRigid).mButtons ^^^ (1 <<< 1) ≠ 0 := by
    decide
  obtain ⟨-, p2, -, -, p5, p6⟩ :=
    clickTick_changed (fresh sampleRigid sampleRigid sampleRigid) (1 <<< 1) ((1 : ℚ)/10) hx
      (by norm_num [fresh])
  refine ⟨p2, p5, ?_⟩
  show ((fresh sampleRigid sampleRigid sampleRigid).clickTick (1 <<< 1) ((1 : ℚ)/10)).mClickTimer
    = 1/10
  rw [p6]
  norm_num

/-- Witness of C26: button 1 pressed once and held over one tick below the threshold,
then the tick that finalizes: `clicks(1) = 1`. -/
theorem long_hold_counts_once_witness :
    (1 : Nat) < NO_BUTTON ∧
      (idle sampleHold ([] : List ℚ)).mClickTimer < 0.2 ∧
      (0.2 : ℚ) ≤ (idle sampleHold [1/10]).mClickTimer ∧
      ((idle sampleHold [1/10]).updateClicks (1/10)).clicks 1 = 1 :=
  have hbelow : (idle sampleHold ([] : List ℚ)).mClickTimer < 0.2 := by
    show sampleHold.mClickTimer < 0.2
    rw [sampleHold_fields.2.2]
    norm_num
  have hup : (0.2 : ℚ) ≤ (idle sampleHold [1/10]).mClickTimer := by
    show (0.2 : ℚ) ≤ (sampleHold.updateClicks (1/10)).mClickTimer
    rw [updateClicks_waiting sampleHold (1/10) sampleHold_fields.1
      (by rw [sampleHold_fields.2.1, sampleHold_fields.2.2]; norm_num)]
    show (0.2 : ℚ) ≤ sampleHold.mClickTimer + 1/10
    rw [sampleHold_fields.2.2]
    norm_num
  ⟨by decide, hbelow, hup,
    ((long_hold_counts_once sampleRigid sampleRigid sampleRigid 1 (by decide) (1/10)).2.2.2
      [1/10] (1/10)
      (fun k hk => by
        have hk0 : k = 0 := by simpa using hk
        subst hk0
        exact hbelow)
      hup).2.2⟩

end Controller

/-! ### The drain step of `pollEvent()` -/

/-- One pass of the controller loop writes the stored runtime state and the controller
slot of index `i` only, with `updateController.slot`. -/
theorem updateController_slots [Sub α] (rt : PollRuntime α) (i : Nat) (s : VRSystem α) :
    (updateController rt i s).mControllers =
        Function.update s.mControllers i
          (updateController.slot rt i (s.mControllerStates i) (s.mControllers i)).2 ∧
      (updateController rt i s).mControllerStates =
        Function.update s.mControllerStates i
          (updateController.slot rt i (s.mControllerStates i) (s.mControllers i)).1 := by
  by_cases hc : ETrackedDeviceClass.TrackedDeviceClass_Controller = rt.GetTrackedDeviceClass i
  · cases hst : rt.GetControllerState i with
    | none =>
      simp [updateController, updateController.slot, updateControllerState, hc, hst]
    | some state =>
      by_cases hp : state.unPacketNum = (s.mControllerStates i).unPacketNum
      · simp [updateController, updateController.slot, updateControllerState, hc, hst, hp]
      · simp [updateController, updateController.slot, updateControllerState, hc, hst, hp]
  · simp [updateController, updateController.slot, hc]

/-- The controller loop over the first `n` indices. -/
theorem controllerLoop_spec [Sub α] (rt : PollRuntime α) (s : VRSystem α) (n : Nat) :
    ∀ j,
      ((List.range n).foldl (fun s i => updateController rt i s) s).mControllers j =
          (if j < n then
            (updateController.slot rt j (s.mControllerStates j) (s.mControllers j)).2
          else s.mControllers j) ∧
        ((List.range n).foldl (fun s i => updateController rt i s) s).mControllerStates j =
          (if j < n then
            (updateController.slot rt j (s.mControllerStates j) (s.mControllers j)).1
          else s.mControllerStates j) := by
  induction n with
  | zero =>
    intro j
    simp
  | succ n ih =>
    intro j
    simp only [List.range_succ, List.foldl_append, List.foldl_cons, List.foldl_nil]
    obtain ⟨hc, hs⟩ := updateController_slots rt n
      ((List.range n).foldl (fun s i => updateController rt i s) s)
    rw [hc, hs]
    have hn := ih n
    simp only [lt_irrefl, if_false] at hn
    by_cases hj : j = n
    · subst hj
      simp only [Function.update_same, Nat.lt_succ_self, if_true]
      rw [hn.1, hn.2]
      exact ⟨rfl, rfl⟩
    · have hlt : j < n + 1 ↔ j < n := by omega
      rw [Function.update_noteq hj, Function.update_noteq hj]
      simp only [hlt]
      exact ih j

/-- One pass of the hand loop leaves the controller slots and the stored runtime states
alone. -/
theorem updateHand_frame (vr : OpenVRHeader) (rt : PollRuntime α) (i : Nat)
    (s : VRSystem α) :
    (updateHand vr rt i s).mControllers = s.mControllers ∧
      (updateHand vr rt i s).mControllerStates = s.mControllerStates := by
  by_cases h : vr.k_unTrackedDeviceIndexInvalid =
      rt.GetTrackedDeviceIndexForControllerRole (toOVRControllerRole i)
  · simp [updateHand, h]
  · simp [updateHand, h]

/-- With a live session and an empty queue, `pollEvent()` returns false after the hand
loop and the controller loop. -/
theorem pollEvent_none [Sub α] (vr : OpenVRHeader) (n : Nat) (rt : PollRuntime α)
    (s : VRSystem α) (hlive : s.valid = true) (hev : rt.PollNextEvent = none) :
    pollEvent vr n rt s =
      (false, (List.range n).foldl (fun s i => updateController rt i s)
        (updateHand vr rt 1 (updateHand vr rt 0 s))) := by
  unfold pollEvent
  simp only [hlive, Bool.not_true, Bool.false_eq_true, if_false, hev]
  rfl

/-- The controller slots after a `pollEvent()` call that finds the queue empty. -/
theorem pollEvent_none_controllers [Sub α] (vr : OpenVRHeader) (n : Nat)
    (rt : PollRuntime α) (s : VRSystem α) (hlive : s.valid = true)
    (hev : rt.PollNextEvent = none) (j : Nat) :
    (pollEvent vr n rt s).2.mControllers j =
      if j < n then (updateController.slot rt j (s.mControllerStates j) (s.mControllers j)).2
      else s.mControllers j := by
  rw [pollEvent_none vr n rt s hlive hev]
  obtain ⟨h1c, h1s⟩ := updateHand_frame vr rt 1 (updateHand vr rt 0 s)
  obtain ⟨h0c, h0s⟩ := updateHand_frame vr rt 0 s
  have h := (controllerLoop_spec rt (updateHand vr rt 1 (updateHand vr rt 0 s)) n j).1
  rw [h1c, h0c, h1s, h0s] at h
  exact h

/-- The automatic actions leave the controller slots alone. -/
theorem automaticActions_mControllers (vr : OpenVRHeader) (s : VRSystem α) :
    (automaticActions vr s).mControllers = s.mControllers := by
  unfold automaticActions
  split
  · rfl
  · split_ifs <;> rfl
  · rfl

/-- C27: in a `pollEvent()` call that finds the event queue empty, for every
controller-class device (index below the slot count) whose runtime packet number equals
the stored one, the button bits, touch bits, axis positions and axis velocities are
unchanged and both change masks are zero afterwards; a `pollEvent()` call that returns an
event changes no controller slot at all. -/
theorem pollEvent_same_packet [Sub α] (vr : OpenVRHeader) (n : Nat) (rt : PollRuntime α)
    (s : VRSystem α) (hlive : s.valid = true) :
    (∀ (i : Nat) (state : VRControllerState α), rt.PollNextEvent = none → i < n →
        rt.GetTrackedDeviceClass i = ETrackedDeviceClass.TrackedDeviceClass_Controller →
        rt.GetControllerState i = some state →
        state.unPacketNum = (s.mControllerStates i).unPacketNum →
        ((pollEvent vr n rt s).2.mControllers i).mButtons = (s.mControllers i).mButtons ∧
          ((pollEvent vr n rt s).2.mControllers i).mTouches = (s.mControllers i).mTouches ∧
          ((pollEvent vr n rt s).2.mControllers i).mAxes = (s.mControllers i).mAxes ∧
          ((pollEvent vr n rt s).2.mControllers i).mAxisChanges =
            (s.mControllers i).mAxisChanges ∧
          ((pollEvent vr n rt s).2.mControllers i).mButtonChanges = 0 ∧
          ((pollEvent vr n rt s).2.mControllers i).mTouchChanges = 0) ∧
      (∀ ev : VREvent α, rt.PollNextEvent = some ev →
        (pollEvent vr n rt s).1 = true ∧
          (pollEvent vr n rt s).2.mControllers = s.mControllers) := by
  constructor
  · intro i state hev hi hclass hstate hpacket
    rw [pollEvent_none_controllers vr n rt s hlive hev i, if_pos hi]
    simp [updateController.slot, hclass, hstate, hpacket, Controller.clearChanges]
  · intro ev hev
    rw [pollEvent_some vr n rt s ev hlive hev]
    exact ⟨rfl, automaticActions_mControllers vr _⟩

/-- Witness of C27: controller 3 of the sample system, whose stored packet number is the
runtime's. -/
theorem pollEvent_same_packet_witness :
    (sampleSystem true).valid = true ∧ samplePollRuntimeIdle.PollNextEvent = none ∧
      3 < 64 ∧
      (pollEvent sampleHeader 64 samplePollRuntimeIdle (sampleSystem true)).1 = false ∧
      ((pollEvent sampleHeader 64 samplePollRuntimeIdle (sampleSystem true)).2.mControllers
        3).mButtons = 0 ∧
      ((pollEvent sampleHeader 64 samplePollRuntimeIdle (sampleSystem true)).2.mControllers
        3).mButtonChanges = 0 :=
  have h := (pollEvent_same_packet sampleHeader 64 samplePollRuntimeIdle (sampleSystem true)
    rfl).1 3 _ rfl (by decide) rfl rfl rfl
  ⟨rfl, rfl, by decide,
    by rw [pollEvent_none sampleHeader 64 samplePollRuntimeIdle (sampleSystem true) rfl rfl],
    h.1, h.2.2.2.2.1⟩

/-! ### Controller lookup by hand -/

/-- C28: in every state whose `CONTROLLER` registry entry is in ascending order (as
`updatePoses()` leaves it) and holds indices below `MAX_TRACKED_DEVICES` (at least one
slot, at most `2 ^ 31`), `controller(hand)` for `hand` in {0,1} is the slot of an index `k`
below `MAX_TRACKED_DEVICES`: with two or more controllers `k` is the `hand`-th smallest
registry index (exactly `hand` registry indices lie below it), with exactly one controller
`k` is that controller's index for both hands, and with none `k` is 0. -/
theorem controller_lookup (n : Nat) (s : VRSystem α) (hand : Nat) (hhand : hand < 2)
    (hsorted : List.Sorted (fun a b => a < b) (s.mDeviceIndices DeviceType.CONTROLLER))
    (hbound : ∀ k, k ∈ s.mDeviceIndices DeviceType.CONTROLLER → k < n)
    (hslots : 0 < n) (hint : n ≤ 2 ^ 31) :
    ∃ k : Nat, s.controllerIndex hand = (k : Int) ∧ k < n ∧
      s.controller hand = s.mControllers k ∧
      (2 ≤ (s.mDeviceIndices DeviceType.CONTROLLER).length →
        k ∈ s.mDeviceIndices DeviceType.CONTROLLER ∧
          ((s.mDeviceIndices DeviceType.CONTROLLER).filter (fun j => decide (j < k))).length =
            hand) ∧
      ((s.mDeviceIndices DeviceType.CONTROLLER).length = 1 →
        s.mDeviceIndices DeviceType.CONTROLLER = [k]) ∧
      (s.mDeviceIndices DeviceType.CONTROLLER = [] → k = 0) := by
  have hconv : ∀ k, k < n → uint32ToInt k = (k : Int) :=
    fun k hk => uint32ToInt_small k (by omega)
  rcases hreg : s.mDeviceIndices DeviceType.CONTROLLER with _ | ⟨a, _ | ⟨b, rest⟩⟩
  · refine ⟨0, ?_, hslots, ?_, ?_, ?_, fun _ => rfl⟩
    · simp [controllerIndex, hreg]
    · simp [controller, controllerIndex, hreg]
    · intro h
      simp at h
    · intro h
      simp at h
  · have ha : a < n := hbound a (by rw [hreg]; simp)
    have hidx : s.controllerIndex hand = (a : Int) := by
      simp [controllerIndex, hreg, hconv a ha]
    refine ⟨a, hidx, ha, ?_, ?_, fun _ => rfl, ?_⟩
    · simp [controller, hidx]
    · intro h
      simp at h
    · intro h
      simp at h
  · rw [hreg] at hsorted hbound
    have ha : a < n := hbound a (by simp)
    have hb : b < n := hbound b (by simp)
    obtain ⟨hab, hrest⟩ := List.sorted_cons.mp hsorted
    obtain ⟨hbr, -⟩ := List.sorted_cons.mp hrest
    have hlen : 2 ≤ (a :: b :: rest).length := by simp
    interval_cases hand
    · have hidx : s.controllerIndex 0 = (a : Int) := by
        simp [controllerIndex, hreg, hconv a ha]
      refine ⟨a, hidx, ha, ?_, ?_, ?_, ?_⟩
      · simp [controller, hidx]
      · intro _
        refine ⟨by simp, ?_⟩
        rw [List.length_eq_zero, List.filter_eq_nil_iff]
        intro x hx
        have hle : a ≤ x := by
          rcases List.mem_cons.mp hx with h | h
          · exact le_of_eq h.symm
          · exact le_of_lt (hab x h)
        simpa using hle
      · intro h
        simp at h
      · intro h
        simp at h
    · have hidx : s.controllerIndex 1 = (b : Int) := by
        simp [controllerIndex, hreg, hconv b hb]
      refine ⟨b, hidx, hb, ?_, ?_, ?_, ?_⟩
      · simp [controller, hidx]
      · intro _
        refine ⟨by simp, ?_⟩
        have hlt : a < b := hab b (by simp)
        have htail : (b :: rest).filter (fun j => decide (j < b)) = [] := by
          rw [List.filter_eq_nil_iff]
          intro x hx
          have hle : b ≤ x := by
            rcases List.mem_cons.mp hx with h | h
            · exact le_of_eq h.symm
            · exact le_of_lt (hbr x h)
          simpa using hle
        rw [List.filter_cons_of_pos (by simpa using hlt), htail]
        rfl
      · intro h
        simp at h
      · intro h
        simp at h

/-- The `CONTROLLER` registry entry after the sample update is `[3, 5]`. -/
theorem sampleUpdate_registry :
    (updatePoses 64 (sampleRuntime true) (sampleSystem true)).mDeviceIndices
      DeviceType.CONTROLLER = [3, 5] := by
  obtain ⟨-, -, -, hreg⟩ := updatePoses_spec 64 (sampleRuntime true) (sampleSystem true) rfl
  rw [hreg]
  show (collectDeviceIndices (sampleRuntime true) (sampleSystem true).mDeviceIndices
    (fromOVRDeviceClass ETrackedDeviceClass.TrackedDeviceClass_Controller)).insertionSort _ = _
  rw [(collectDeviceIndices_apply (sampleRuntime true) (sampleSystem true).mDeviceIndices).1
    ETrackedDeviceClass.TrackedDeviceClass_Controller (by decide)]
  decide

/-- Witness of C28: after the sample update the registry is `[3, 5]`, and hand 1
addresses slot 5. -/
theorem controller_lookup_witness :
    (1 : Nat) < 2 ∧
      List.Sorted (fun a b => a < b)
        ((updatePoses 64 (sampleRuntime true) (sampleSystem true)).mDeviceIndices
          DeviceType.CONTROLLER) ∧
      (0 : Nat) < 64 ∧ (64 : Nat) ≤ 2 ^ 31 ∧
      ∃ k : Nat,
        (updatePoses 64 (sampleRuntime true) (sampleSystem true)).controllerIndex 1 = (k : Int) ∧
          k < 64 ∧
          (updatePoses 64 (sampleRuntime true) (sampleSystem true)).controller 1 =
            (updatePoses 64 (sampleRuntime true) (sampleSystem true)).mControllers k :=
  have hsorted : List.Sorted (fun a b => a < b)
      ((updatePoses 64 (sampleRuntime true) (sampleSystem true)).mDeviceIndices
        DeviceType.CONTROLLER) := by
    rw [sampleUpdate_registry]
    simp
  have hbound : ∀ k, k ∈ (updatePoses 64 (sampleRuntime true) (sampleSystem true)).mDeviceIndices
      DeviceType.CONTROLLER → k < 64 := by
    rw [sampleUpdate_registry]
    intro k hk
    simp at hk
    omega
  have h := controller_lookup 64 (updatePoses 64 (sampleRuntime true) (sampleSystem true)) 1
    (by decide) hsorted hbound (by decide) (by decide)
  ⟨by decide, hsorted, by decide, by decide,
    h.elim fun k hk => ⟨k, hk.1, hk.2.1, hk.2.2.1⟩⟩

/-! ### The hand field -/

/-- The axis loop of the controller-state refresh leaves the hand field alone. -/
theorem foldl_setAxis_mHand [Sub α] (f : Nat → α × α) (l : List Nat) (c : Controller α) :
    (l.foldl (fun c i => c.setAxis i (f i).1 (f i).2) c).mHand = c.mHand := by
  induction l generalizing c with
  | nil => rfl
  | cons x l ih =>
    rw [List.foldl_cons, ih]
    rfl

/-- A tick of the click recognizer leaves the hand field alone. -/
theorem Controller.updateClicks_mHand [LinearOrderedField α] (c : Controller α) (dt : α) :
    (c.updateClicks dt).mHand = c.mHand := by
  by_cases hch : c.mButtonChanges = 0
  · by_cases hlt : c.mClickTimer < c.mClickTimeMax
    · rw [Controller.updateClicks_waiting c dt hch hlt]
    · rw [Controller.updateClicks_timeout c dt hch (not_lt.mp hlt)]
  · simp only [Controller.updateClicks, hch, ne_eq, not_false_eq_true, if_true]
    split_ifs <;> rfl

/-- One pass of the controller loop of `pollEvent()` leaves the hand field of the slot
it visits alone. -/
theorem updateController_slot_mHand [Sub α] (rt : PollRuntime α) (i : Nat)
    (stored : VRControllerState α) (c : Controller α) :
    (updateController.slot rt i stored c).2.mHand = c.mHand := by
  unfold updateController.slot
  split_ifs with hc
  · cases rt.GetControllerState i with
    | none => rfl
    | some state =>
      simp only
      split_ifs
      · rw [foldl_setAxis_mHand]
        rfl
      · rfl
  · rfl

/-- The operation `updatePoses()` leaves the hand field of every controller slot alone. -/
theorem updatePoses_mHand [Add α] [Mul α] [Neg α] [Zero α] [One α]
    (n : Nat) (rt : Runtime α) (s : VRSystem α) (i : Nat) :
    ((updatePoses n rt s).mControllers i).mHand = (s.mControllers i).mHand := by
  by_cases hlive : s.valid = true
  · rw [updatePoses_live n rt s hlive]
    show (((List.range n).foldl (fun s i => updateDevice rt i s) _).mControllers i).mHand = _
    rw [deviceLoop_controllers]
    split_ifs <;> rfl
  · have hdead : s.valid = false := by simpa using hlive
    unfold updatePoses
    simp [hdead]

/-- The operation `pollEvent()` leaves the hand field of every controller slot alone. -/
theorem pollEvent_mHand [Sub α] (vr : OpenVRHeader) (n : Nat) (rt : PollRuntime α)
    (s : VRSystem α) (i : Nat) :
    ((pollEvent vr n rt s).2.mControllers i).mHand = (s.mControllers i).mHand := by
  by_cases hlive : s.valid = true
  · cases hev : rt.PollNextEvent with
    | none =>
      rw [pollEvent_none_controllers vr n rt s hlive hev i]
      split_ifs
      · exact updateController_slot_mHand rt i _ _
      · rfl
    | some ev =>
      rw [pollEvent_some vr n rt s ev hlive hev]
      show ((automaticActions vr _).mControllers i).mHand = _
      rw [automaticActions_mControllers]
  · have hdead : s.valid = false := by simpa using hlive
    unfold pollEvent
    simp [hdead]

/-- The operation `poseParent()` leaves the controller slots alone. -/
theorem poseParent_mControllers [Add α] [Mul α] [Neg α] (n : Nat) (m : Matrix4 α)
    (s : VRSystem α) : (poseParent n m s).mControllers = s.mControllers := by
  unfold poseParent
  simp only
  split_ifs <;> rfl

/-- Writing a value with the old hand field into one controller slot keeps every hand
field. -/
theorem update_slot_mHand (f : Nat → Controller α) (i : Nat) (c : Controller α)
    (hc : c.mHand = (f i).mHand) (j : Nat) :
    (Function.update f i c j).mHand = (f j).mHand := by
  by_cases hj : j = i
  · subst hj
    rw [Function.update_same, hc]
  · rw [Function.update_noteq hj]

/-- C30: no operation ever writes a controller's hand field: in every state reachable
from construction by `updatePoses()`, `pollEvent()`, `poseParent()` and the `Controller`
operations, `hand()` returns `LEFT` (0) for every controller slot, also after the drain
step that refreshes the hand-to-device table. -/
theorem hand_always_left [LinearOrderedField α] (n : Nat) (vr : OpenVRHeader)
    (s : VRSystem α) (hreach : Reachable n vr s) :
    ∀ i, (s.mControllers i).hand = LEFT := by
  induction hreach with
  | construct initOk indet => exact fun i => rfl
  | updatePoses rt s _ ih =>
    intro i
    exact (updatePoses_mHand n rt s i).trans (ih i)
  | pollEvent rt s _ ih =>
    intro i
    exact (pollEvent_mHand vr n rt s i).trans (ih i)
  | poseParent m s _ ih =>
    intro i
    show ((poseParent n m s).mControllers i).mHand = LEFT
    rw [poseParent_mControllers]
    exact ih i
  | updateClicks k dt s _ ih =>
    intro i
    exact (update_slot_mHand s.mControllers k ((s.mControllers k).updateClicks dt)
      (Controller.updateClicks_mHand _ dt) i).trans (ih i)
  | assign k d s _ ih =>
    intro i
    exact (update_slot_mHand s.mControllers k ((s.mControllers k).assign d) rfl i).trans (ih i)
  | setButtons k v s _ ih =>
    intro i
    exact (update_slot_mHand s.mControllers k ((s.mControllers k).setButtons v) rfl i).trans
      (ih i)
  | setTouches k v s _ ih =>
    intro i
    exact (update_slot_mHand s.mControllers k ((s.mControllers k).setTouches v) rfl i).trans
      (ih i)
  | setAxis k axisNum x y s _ ih =>
    intro i
    exact (update_slot_mHand s.mControllers k ((s.mControllers k).setAxis axisNum x y) rfl
      i).trans (ih i)

/-- Witness of C30: construction with a live session, an update of the poses and a drain
of the empty event queue that assigns device 3 to both hands; the hand field of
controller slot 3 is still `LEFT`. -/
theorem hand_always_left_witness :
    Reachable 64 sampleHeader
        (pollEvent sampleHeader 64 samplePollRuntimeIdle
          (updatePoses 64 (sampleRuntime true) (construct true (sampleSystem false)))).2 ∧
      (((pollEvent sampleHeader 64 samplePollRuntimeIdle
          (updatePoses 64 (sampleRuntime true)
            (construct true (sampleSystem false)))).2.mControllers 3).hand = LEFT) :=
  have hreach : Reachable 64 sampleHeader
      (pollEvent sampleHeader 64 samplePollRuntimeIdle
        (updatePoses 64 (sampleRuntime true) (construct true (sampleSystem false)))).2 :=
    Reachable.pollEvent _ _ (Reachable.updatePoses _ _ (Reachable.construct _ _))
  ⟨hreach, hand_always_left 64 sampleHeader _ hreach 3⟩

/-! ### The projection and the planes -/

/-- After `updatePoses()` with a live session the projection of each eye is the runtime's
projection at the planes stored before the call, and the planes are kept. -/
theorem updatePoses_projection [Add α] [Mul α] [Neg α] [Zero α] [One α]
    (n : Nat) (rt : Runtime α) (s : VRSystem α) (hlive : s.valid = true)
    (i : Nat) (hi : i < 2) :
    (updatePoses n rt s).mEyeToScreen i =
        toMatrix4_44 (rt.GetProjectionMatrix (toOVREye i) s.mNear s.mFar) ∧
      (updatePoses n rt s).mNear = s.mNear ∧ (updatePoses n rt s).mFar = s.mFar := by
  obtain ⟨hnear, hfar, -⟩ := deviceLoop_frame_eye rt
    { s with mDeviceIndices := sortDeviceIndices (collectDeviceIndices rt s.mDeviceIndices) } n
  have hnear2 : ((List.range n).foldl (fun s i => updateDevice rt i s)
      { s with
        mDeviceIndices :=
          sortDeviceIndices (collectDeviceIndices rt s.mDeviceIndices) }).mNear = s.mNear :=
    hnear
  have hfar2 : ((List.range n).foldl (fun s i => updateDevice rt i s)
      { s with
        mDeviceIndices :=
          sortDeviceIndices (collectDeviceIndices rt s.mDeviceIndices) }).mFar = s.mFar :=
    hfar
  rw [updatePoses_live n rt s hlive]
  refine ⟨?_, hnear2, hfar2⟩
  interval_cases i
  · exact congrArg₂ (fun x y => toMatrix4_44 (rt.GetProjectionMatrix (toOVREye 0) x y))
      hnear2 hfar2
  · exact congrArg₂ (fun x y => toMatrix4_44 (rt.GetProjectionMatrix (toOVREye 1) x y))
      hnear2 hfar2

/-- The setter `near(v)` stores `v` and touches nothing else. -/
theorem near₁_eq [DecidableEq α] (s : VRSystem α) (v : α) :
    s.near₁ v = { s with mNear := v } := by
  unfold near₁
  split_ifs with h
  · rfl
  · have hv : v = s.mNear := by simpa using h
    rw [hv]

/-- The setter `far(v)` stores `v` and touches nothing else. -/
theorem far₁_eq [DecidableEq α] (s : VRSystem α) (v : α) :
    s.far₁ v = { s with mFar := v } := by
  unfold far₁
  split_ifs with h
  · rfl
  · have hv : v = s.mFar := by simpa using h
    rw [hv]

/-- C21 as amended: `near(v)` and `far(v)` only store the plane value and leave the
projection as it is; every `updatePoses()` with a live session requests the projection of
both eyes from the runtime at the planes current at that call, so right after
`updatePoses()` `projection(eye)` is the runtime's projection at the current `near()` and
`far()`, and a changed plane is reflected from the next `updatePoses()` on. -/
theorem projection_follows_updatePoses [Add α] [Mul α] [Neg α] [Zero α] [One α]
    [DecidableEq α] (n : Nat) (rt : Runtime α) (s : VRSystem α) (hlive : s.valid = true)
    (i : Nat) (hi : i < 2) (v : α) :
    (updatePoses n rt s).projection i =
        toMatrix4_44 (rt.GetProjectionMatrix (toOVREye i)
          (updatePoses n rt s).near (updatePoses n rt s).far) ∧
      ((s.near₁ v).near = v ∧ (s.near₁ v).far = s.far ∧
        (s.near₁ v).projection i = s.projection i) ∧
      ((s.far₁ v).far = v ∧ (s.far₁ v).near = s.near ∧
        (s.far₁ v).projection i = s.projection i) ∧
      (updatePoses n rt (s.near₁ v)).projection i =
        toMatrix4_44 (rt.GetProjectionMatrix (toOVREye i) v s.far) ∧
      (updatePoses n rt (s.far₁ v)).projection i =
        toMatrix4_44 (rt.GetProjectionMatrix (toOVREye i) s.near v) := by
  obtain ⟨hp, hn, hf⟩ := updatePoses_projection n rt s hlive i hi
  refine ⟨?_, ?_, ?_, ?_, ?_⟩
  · show (updatePoses n rt s).mEyeToScreen i =
      toMatrix4_44 (rt.GetProjectionMatrix (toOVREye i) (updatePoses n rt s).mNear
        (updatePoses n rt s).mFar)
    rw [hp, hn, hf]
  · rw [near₁_eq]
    exact ⟨rfl, rfl, rfl⟩
  · rw [far₁_eq]
    exact ⟨rfl, rfl, rfl⟩
  · rw [near₁_eq]
    exact (updatePoses_projection n rt { s with mNear := v } hlive i hi).1
  · rw [far₁_eq]
    exact (updatePoses_projection n rt { s with mFar := v } hlive i hi).1

/-- Witness of C21 as amended: eye 0 of the live sample system and the plane value 1. -/
theorem projection_follows_updatePoses_witness :
    (sampleSystem true).valid = true ∧ 0 < 2 ∧
      (updatePoses 64 sampleRuntimeProj ((sampleSystem true).near₁ 1)).projection 0 =
        toMatrix4_44 (sampleRuntimeProj.GetProjectionMatrix (toOVREye 0) 1
          (sampleSystem true).far) :=
  ⟨rfl, by decide,
    (projection_follows_updatePoses 64 sampleRuntimeProj (sampleSystem true) rfl 0
      (by decide) 1).2.2.2.1⟩

/-- Counterexample to C21 as stated: a live session is constructed, `updatePoses()` runs
with the planes 0.1 and 100, then `near(1)` changes the near plane. In that state
`near()` is 1 but `projection(0)` is still the runtime's projection for the near plane
0.1, not the one for the current planes. -/
theorem projection_stale_after_near :
    ((updatePoses 64 sampleRuntimeProj (construct true (sampleSystem false))).near₁ 1).valid =
        true ∧
      ((updatePoses 64 sampleRuntimeProj (construct true (sampleSystem false))).near₁ 1).near =
        1 ∧
      ((updatePoses 64 sampleRuntimeProj (construct true (sampleSystem false))).near₁
          1).projection 0 ≠
        toMatrix4_44 (sampleRuntimeProj.GetProjectionMatrix (toOVREye 0)
          ((updatePoses 64 sampleRuntimeProj (construct true (sampleSystem false))).near₁ 1).near
          ((updatePoses 64 sampleRuntimeProj (construct true (sampleSystem false))).near₁
            1).far) := by
  obtain ⟨hp, -, -⟩ := updatePoses_projection 64 sampleRuntimeProj
    (construct true (sampleSystem false)) rfl 0 (by decide)
  obtain ⟨-, hv, -, -⟩ := updatePoses_spec 64 sampleRuntimeProj
    (construct true (sampleSystem false)) rfl
  rw [near₁_eq]
  refine ⟨hv, rfl, ?_⟩
  show (updatePoses 64 sampleRuntimeProj (construct true (sampleSystem false))).mEyeToScreen 0 ≠ _
  rw [hp]
  intro h
  have h0 := congrArg Matrix4.m0 h
  norm_num [toMatrix4_44, sampleRuntimeProj, construct, near, far] at h0

/-! ### The head pose and its view -/

namespace Controller

/-! ### The range of axisSector -/

/-- On an axis position with both coordinates `1`, `axisSector` with the rotation offset
that brings the angle fraction to exactly `1` returns the number of divisions itself: the
wrap tests `arg1 > 1`, so the fraction `1` is not brought back to `0`. -/
theorem axisSector_boundary [LinearOrderedField α] [FloorRing α] (atan2 : α → α → α)
    (c : Controller α) (b : Nat) (d : Nat) (hpos : c.axis b = (1, 1)) :
    axisSector atan2 c b (d : α)
      (1 - atan2 1 1 * 0.15915494309189533576888376337251) = (d : Int) := by
  unfold axisSector
  simp only [hpos]
  have h10 : ¬ ((1 : α) = 0 ∨ (1 : α) = 0) := by simp
  rw [if_neg h10]
  have harg : atan2 1 1 * 0.15915494309189533576888376337251 +
      (1 - atan2 1 1 * 0.15915494309189533576888376337251) = (1 : α) := by ring
  simp only [harg]
  have h1 : ¬ ((1 : α) < 0) := by norm_num
  have h2 : ¬ ((1 : α) > 1) := by norm_num
  rw [if_neg h1, if_neg h2, one_mul]
  unfold truncToInt
  rw [if_pos (Nat.cast_nonneg d)]
  exact Int.floor_natCast d

/-- C23: evaluation of `axisSector` on the axis position `(0,1)`, which is not the
origin: for every number of divisions, every rotation offset and every `atan2` (the exact
real function included) the guard `xy[0]==0 || xy[1]==0` fires and the result is `-1`, not
a sector number in `0 .. d-1`. -/
theorem axisSector_on_axis [LinearOrderedField α] [FloorRing α] (atan2 : α → α → α)
    (pose : Matrix4 α) (divs rotate : α) :
    ((fresh pose pose pose).setAxis 0 0 1).axis AXIS0 = (0, 1) ∧
      ((0 : α), (1 : α)) ≠ (0, 0) ∧
      axisSector atan2 ((fresh pose pose pose).setAxis 0 0 1) AXIS0 divs rotate = -1 ∧
      ¬ (0 ≤ axisSector atan2 ((fresh pose pose pose).setAxis 0 0 1) AXIS0 divs rotate) := by
  have hax : ((fresh pose pose pose).setAxis 0 0 1).axis AXIS0 = (0, 1) := by
    simp [axis, setAxis, AXIS0]
  have hval : axisSector atan2 ((fresh pose pose pose).setAxis 0 0 1) AXIS0 divs rotate = -1 := by
    unfold axisSector
    simp [hax]
  refine ⟨hax, ?_, hval, ?_⟩
  · intro h
    have h2 := congrArg Prod.snd h
    simp at h2
  · rw [hval]
    decide

end Controller

end VRSystem
